import Mathlib

/-!
Verification of the statistical analytics engine and prediction reconciler of
the traffic-tracker worker.

The TypeScript/SQL source is shallowly embedded over exact rationals:

* a database is an in-memory `List Trip` (the `trips` table) and
  `List Prediction` (the `predictions` table);
* the JavaScript floating-point arithmetic of the analytics module is
  modelled by exact `ℚ` arithmetic;
* `Math.round x` (round half toward positive infinity) is `⌊x + 1/2⌋`;
* `Math.round (Math.sqrt v * s)` for `v ≥ 0` is computed exactly through the
  natural-number square root (`sqrtFloorQ`, `roundSqrtHalfUp` below) and
  related to `Real.sqrt` by the lemmas `sqrtFloorQ_eq_floor_sqrt` and
  `roundSqrtHalfUp_eq`;
* SQL text timestamps (`measured_at_local`) are `String`s compared with
  SQLite's lexicographic text ordering; UTC instants used by
  `julianday` arithmetic are `ℚ` julian-day values.
-/

namespace TrafficTracker

/-- JavaScript `Math.round`: round half toward positive infinity. -/
def jsRound (x : ℚ) : ℤ := ⌊x + 1/2⌋

/-- `Math.round (x * 10) / 10` — round to one decimal place. -/
def round1 (x : ℚ) : ℚ := (jsRound (x * 10) : ℚ) / 10

/-- SQLite `ROUND(x, 1)`: one decimal, half away from zero. -/
def sqliteRound1 (x : ℚ) : ℚ :=
  if 0 ≤ x then (⌊x * 10 + 1/2⌋ : ℚ) / 10 else -((⌊(-x) * 10 + 1/2⌋ : ℚ) / 10)

/-- `⌊Real.sqrt q⌋₊` computed exactly on rationals via `Nat.sqrt`
(for `q = a/b` in lowest terms, `√(a/b) = √(a*b)/b`). -/
def sqrtFloorQ (q : ℚ) : ℕ := Nat.sqrt (q.num.toNat * q.den) / q.den

/-- `Math.round (Math.sqrt v * s)` for `v ≥ 0`, computed exactly:
`⌊√v * s + 1/2⌋₊ = (⌊√(4 s² v)⌋₊ + 1) / 2`. -/
def roundSqrtHalfUp (s : ℕ) (v : ℚ) : ℕ :=
  (sqrtFloorQ (((4 * s^2 : ℕ) : ℚ) * v) + 1) / 2

/-- SQLite text comparison `a <= b` on timestamp strings. -/
def textLe (a b : String) : Bool := decide (a < b) || a == b

/-- `direction` column: `'outbound' | 'inbound'` (src/types.ts). -/
inductive Direction
  | outbound
  | inbound
deriving DecidableEq

/-- SQLite orders the `direction` TEXT column with `'inbound' < 'outbound'`;
this list enumerates the directions in that order. -/
def directionsSorted : List Direction := [Direction.inbound, Direction.outbound]

/-- `traffic_model` column (src/predictions.ts). -/
inductive TrafficModel
  | best_guess
  | pessimistic
  | optimistic
deriving DecidableEq

/-- One row of the `trips` table (schema.sql, src/types.ts `Trip`).
`measuredAtJd` is the julian-day value of the UTC `measured_at` timestamp
(used by the reconciler's `julianday` arithmetic); `measuredAtLocal` is the
local-time text timestamp used by the filter predicates. -/
structure Trip where
  id : ℕ
  measuredAtJd : ℚ
  measuredAtLocal : String
  direction : Direction
  durationSeconds : ℤ
  durationInTrafficSeconds : ℤ
  dayOfWeek : ℕ
  hourLocal : ℕ
  isHoliday : Bool
  routeId : String
deriving DecidableEq

/-- One row of the `predictions` table (migrations/001-predictions.sql).
`predictedAtJd`/`predictedForJd` are julian-day values of the UTC instants. -/
structure Prediction where
  id : ℕ
  predictedAtJd : ℚ
  predictedForJd : ℚ
  direction : Direction
  routeId : String
  predictedDurationSeconds : ℤ
  trafficModel : TrafficModel
  dayOfWeek : ℕ
  hourLocal : ℕ
  isHoliday : Bool
  actualTripId : Option ℕ
deriving DecidableEq

/-- `QueryFilters` (src/types.ts), with the optional `routeId` read by the
analytics module's `buildWhereClause`.  A `none` field models an absent
(null/undefined) filter. -/
structure QueryFilters where
  startDate : Option String
  endDate : Option String
  direction : Option Direction
  excludeHolidays : Bool
  routeId : Option String
deriving DecidableEq

/-- The empty filter: no conditions. -/
def noFilter : QueryFilters :=
  { startDate := none
    endDate := none
    direction := none
    excludeHolidays := false
    routeId := none }

/-- Row predicate of `buildWhereClause` in src/queries.ts: conditions
`measured_at_local >= startDate || 'T00:00:00'`,
`measured_at_local <= endDate || 'T23:59:59'`, `direction = ?`,
`is_holiday = 0`.  There is no `routeId` condition in this version. -/
def queriesWherePred (f : QueryFilters) (t : Trip) : Bool :=
  (match f.startDate with
   | some s => textLe (s ++ "T00:00:00") t.measuredAtLocal
   | none => true) &&
  (match f.endDate with
   | some e => textLe t.measuredAtLocal (e ++ "T23:59:59")
   | none => true) &&
  (match f.direction with
   | some d => decide (t.direction = d)
   | none => true) &&
  (!f.excludeHolidays || !t.isHoliday)

/-- Row predicate of `buildWhereClause` in the analytics module
(src/routes.ts statistical-analysis part): the same four conditions plus
`route_id = ?` when `filters.routeId` is set. -/
def analyticsWherePred (f : QueryFilters) (t : Trip) : Bool :=
  (match f.startDate with
   | some s => textLe (s ++ "T00:00:00") t.measuredAtLocal
   | none => true) &&
  (match f.endDate with
   | some e => textLe t.measuredAtLocal (e ++ "T23:59:59")
   | none => true) &&
  (match f.direction with
   | some d => decide (t.direction = d)
   | none => true) &&
  (!f.excludeHolidays || !t.isHoliday) &&
  (match f.routeId with
   | some r => decide (t.routeId = r)
   | none => true)

/-- `SELECT duration_in_traffic_seconds / 60.0 as minutes FROM trips
WHERE ... AND direction = d`: the minute-duration samples of one direction
under a filter (the per-direction groups built by `getStatisticalSummary`
and `getReliabilityMetrics`). -/
def minutesFor (db : List Trip) (f : QueryFilters) (d : Direction) : List ℚ :=
  ((db.filter (fun t => analyticsWherePred f t)).filter
      (fun t => decide (t.direction = d))).map
    (fun t => (t.durationInTrafficSeconds : ℚ) / 60)

/-- All pooled minute values selected by a filter (both directions). -/
def pooledMinutes (db : List Trip) (f : QueryFilters) : List ℚ :=
  (db.filter (fun t => analyticsWherePred f t)).map
    (fun t => (t.durationInTrafficSeconds : ℚ) / 60)

/-- The `percentile` helper of the analytics module: linear interpolation
between order statistics at index `p/100 * (n-1)`. -/
def percentile (sorted : List ℚ) (p : ℚ) : ℚ :=
  if sorted.isEmpty then 0
  else
    let index := p / 100 * ((sorted.length : ℚ) - 1)
    let lower := ⌊index⌋
    let upper := ⌈index⌉
    let weight := index - lower
    if lower = upper then sorted.getD lower.toNat 0
    else sorted.getD lower.toNat 0 * (1 - weight) +
      sorted.getD upper.toNat 0 * weight

/-- Spec-side percentile, following the specification's words: "index =
p/100 × (n−1); if index falls between two integer positions, interpolate
linearly by fractional weight" — written as `lower + weight * (upper -
lower)`, to be compared with the implementation's `percentile`. -/
def specPercentile (sorted : List ℚ) (p : ℚ) : ℚ :=
  let index := p / 100 * ((sorted.length : ℚ) - 1)
  let weight := index - ⌊index⌋
  sorted.getD (⌊index⌋).toNat 0 +
    weight * (sorted.getD (⌈index⌉).toNat 0 - sorted.getD (⌊index⌋).toNat 0)

/-- Spec-side population variance: divide by `n`, not `n − 1`. -/
def popVariance (samples : List ℚ) : ℚ :=
  (samples.map (fun v => (v - samples.sum / samples.length)^2)).sum /
    samples.length

/-- Output row of `getStatisticalSummary` (src/types.ts
`StatisticalSummary`). -/
structure StatisticalSummary where
  direction : Direction
  sample_count : ℕ
  mean_minutes : ℚ
  median_minutes : ℚ
  p75_minutes : ℚ
  p90_minutes : ℚ
  p95_minutes : ℚ
  std_dev_minutes : ℚ
  min_minutes : ℚ
  max_minutes : ℚ
  coefficient_of_variation : ℚ
deriving DecidableEq

/-- The per-direction summary computation inside `getStatisticalSummary`:
sort ascending, mean, population variance, percentiles, `Math.round` to one
decimal.  `std_dev_minutes` is `Math.round (Math.sqrt variance * 10) / 10`,
computed exactly by `roundSqrtHalfUp`; likewise the coefficient of
variation `Math.round (stdDev / mean * 1000) / 1000` is
`roundSqrtHalfUp 1000 (variance / mean²)` when `mean > 0` (the source lets
`NaN` flow when `mean = 0`; that degenerate value is modelled as `0` and is
referenced by no claim). -/
def mkSummary (d : Direction) (values : List ℚ) : StatisticalSummary :=
  let sorted := values.insertionSort (· ≤ ·)
  let n : ℚ := values.length
  let mean := values.sum / n
  let variance := (values.map (fun v => (v - mean)^2)).sum / n
  { direction := d
    sample_count := values.length
    mean_minutes := round1 mean
    median_minutes := round1 (percentile sorted 50)
    p75_minutes := round1 (percentile sorted 75)
    p90_minutes := round1 (percentile sorted 90)
    p95_minutes := round1 (percentile sorted 95)
    std_dev_minutes := (roundSqrtHalfUp 10 variance : ℚ) / 10
    min_minutes := round1 (sorted.headD 0)
    max_minutes := round1 (sorted.getLastD 0)
    coefficient_of_variation :=
      if 0 < mean then (roundSqrtHalfUp 1000 (variance / mean^2) : ℚ) / 1000
      else 0 }

/-- `getStatisticalSummary`: one summary per direction present in the
filtered rows, in SQL `ORDER BY direction` order (`inbound` before
`outbound`); directions with no samples are omitted. -/
def getStatisticalSummary (db : List Trip) (f : QueryFilters) :
    List StatisticalSummary :=
  directionsSorted.filterMap (fun d =>
    let values := minutesFor db f d
    if values.isEmpty then none else some (mkSummary d values))

/-- The five `pattern_type` categories of `getTrafficPatterns`. -/
inductive PatternType
  | very_fast
  | fast
  | moderate
  | slow
  | very_slow
deriving DecidableEq

/-- The SQL `CASE` classifying one minute value against the four derived
boundaries (inclusive upper bounds, checked in ascending order). -/
def classify (vf fa mo sl : ℚ) (m : ℚ) : PatternType :=
  if m ≤ vf then PatternType.very_fast
  else if m ≤ fa then PatternType.fast
  else if m ≤ mo then PatternType.moderate
  else if m ≤ sl then PatternType.slow
  else PatternType.very_slow

/-- Output row of `getTrafficPatterns` (src/types.ts `TrafficPattern`). -/
structure TrafficPattern where
  pattern_type : PatternType
  min_threshold_minutes : ℤ
  max_threshold_minutes : ℤ
  occurrence_count : ℕ
  percentage : ℚ
deriving DecidableEq

/-- `overallMean`: the average across directions of the per-direction
(rounded) `mean_minutes` of the summaries. -/
def overallMeanOf (stats : List StatisticalSummary) : ℚ :=
  (stats.map (fun s => s.mean_minutes)).sum /
    ((stats.map (fun s => s.mean_minutes)).length : ℚ)

/-- `overallStdDev`: the average across directions of the per-direction
(rounded) `std_dev_minutes` of the summaries. -/
def overallStdDevOf (stats : List StatisticalSummary) : ℚ :=
  (stats.map (fun s => s.std_dev_minutes)).sum /
    ((stats.map (fun s => s.std_dev_minutes)).length : ℚ)

/-- `COUNT(*)` of the pooled minute values that the SQL `CASE` sends to one
category. -/
def patternCount (vf fa mo sl : ℚ) (pooled : List ℚ) (pt : PatternType) : ℕ :=
  pooled.countP (fun m => decide (classify vf fa mo sl m = pt))

/-- The `total` of the grouped query: the sum of the category counts. -/
def patternTotal (vf fa mo sl : ℚ) (pooled : List ℚ) : ℕ :=
  patternCount vf fa mo sl pooled PatternType.very_fast +
  patternCount vf fa mo sl pooled PatternType.fast +
  patternCount vf fa mo sl pooled PatternType.moderate +
  patternCount vf fa mo sl pooled PatternType.slow +
  patternCount vf fa mo sl pooled PatternType.very_slow

/-- The reported percentage of a category: a category absent from the
grouped data keeps its initial `0`; a present one gets
`Math.round (count / total * 1000) / 10`. -/
def patternPct (vf fa mo sl : ℚ) (pooled : List ℚ) (pt : PatternType) : ℚ :=
  if patternCount vf fa mo sl pooled pt = 0 then 0
  else (jsRound ((patternCount vf fa mo sl pooled pt : ℚ) /
    (patternTotal vf fa mo sl pooled : ℚ) * 1000) : ℚ) / 10

/-- The five output rows of `getTrafficPatterns` for given boundaries and
pooled values. -/
def patternRows (vf fa mo sl : ℚ) (pooled : List ℚ) : List TrafficPattern :=
  [ { pattern_type := PatternType.very_fast
      min_threshold_minutes := 0
      max_threshold_minutes := jsRound vf
      occurrence_count := patternCount vf fa mo sl pooled PatternType.very_fast
      percentage := patternPct vf fa mo sl pooled PatternType.very_fast },
    { pattern_type := PatternType.fast
      min_threshold_minutes := jsRound vf
      max_threshold_minutes := jsRound fa
      occurrence_count := patternCount vf fa mo sl pooled PatternType.fast
      percentage := patternPct vf fa mo sl pooled PatternType.fast },
    { pattern_type := PatternType.moderate
      min_threshold_minutes := jsRound fa
      max_threshold_minutes := jsRound mo
      occurrence_count := patternCount vf fa mo sl pooled PatternType.moderate
      percentage := patternPct vf fa mo sl pooled PatternType.moderate },
    { pattern_type := PatternType.slow
      min_threshold_minutes := jsRound mo
      max_threshold_minutes := jsRound sl
      occurrence_count := patternCount vf fa mo sl pooled PatternType.slow
      percentage := patternPct vf fa mo sl pooled PatternType.slow },
    { pattern_type := PatternType.very_slow
      min_threshold_minutes := jsRound sl
      max_threshold_minutes := 999
      occurrence_count := patternCount vf fa mo sl pooled PatternType.very_slow
      percentage := patternPct vf fa mo sl pooled PatternType.very_slow } ]

/-- `getTrafficPatterns`: derive the four boundaries from the per-direction
summaries (averaging the rounded `mean_minutes`/`std_dev_minutes` across
directions), classify every pooled measurement with the SQL `CASE`, and
report the five categories with counts and percentages. -/
def getTrafficPatterns (db : List Trip) (f : QueryFilters) :
    List TrafficPattern :=
  let stats := getStatisticalSummary db f
  if stats.isEmpty then []
  else
    patternRows (overallMeanOf stats - 0.5 * overallStdDevOf stats)
      (overallMeanOf stats)
      (overallMeanOf stats + 0.5 * overallStdDevOf stats)
      (overallMeanOf stats + 1.5 * overallStdDevOf stats)
      (pooledMinutes db f)

/-- Output row of `getReliabilityMetrics`. -/
structure ReliabilityRow where
  direction : Direction
  confidence_level : ℚ
  duration_minutes : ℤ
deriving DecidableEq

/-- The default `confidenceLevels` argument of `getReliabilityMetrics`. -/
def defaultConfidenceLevels : List ℚ := [50, 75, 80, 90, 95]

/-- The rows `getReliabilityMetrics` emits for one direction: nothing when
the direction has no samples, otherwise one row per confidence level with
`Math.round (percentile sorted level)`. -/
def relBlock (db : List Trip) (f : QueryFilters) (confidenceLevels : List ℚ)
    (d : Direction) : List ReliabilityRow :=
  let values := minutesFor db f d
  if values.isEmpty then []
  else
    let sorted := values.insertionSort (· ≤ ·)
    confidenceLevels.map (fun level =>
      { direction := d
        confidence_level := level
        duration_minutes := jsRound (percentile sorted level)
        : ReliabilityRow })

/-- `getReliabilityMetrics`: per direction present, one row per confidence
level. -/
def getReliabilityMetrics (db : List Trip) (f : QueryFilters)
    (confidenceLevels : List ℚ) : List ReliabilityRow :=
  (directionsSorted.map (relBlock db f confidenceLevels)).flatten

/-- Absolute gap in minutes between two julian-day instants:
`ABS((julianday a - julianday b) * 24 * 60)`. -/
def minutesBetween (a b : ℚ) : ℚ := |(a - b) * 24 * 60|

/-- The trips eligible to match a prediction: same `route_id`, same
`direction`, and `measured_at` within 30 minutes of `predicted_for`. -/
def eligibleTrips (trips : List Trip) (p : Prediction) : List Trip :=
  trips.filter (fun t =>
    decide (t.routeId = p.routeId) && decide (t.direction = p.direction) &&
      decide (minutesBetween t.measuredAtJd p.predictedForJd ≤ 30))

/-- One step of `ORDER BY ABS(...) LIMIT 1`: keep the strictly closer trip
(the incumbent wins ties, so the first minimum is selected). -/
def closerTrip (p : Prediction) (best t : Trip) : Trip :=
  if minutesBetween t.measuredAtJd p.predictedForJd <
      minutesBetween best.measuredAtJd p.predictedForJd then t else best

/-- The correlated subquery of `linkPredictionsToActuals`: the eligible trip
whose `measured_at` is closest to the prediction's `predicted_for`
(`NULL` when no trip lies within the 30-minute window). -/
def bestMatchTrip (trips : List Trip) (p : Prediction) : Option Trip :=
  match eligibleTrips trips p with
  | [] => none
  | t :: rest => some (rest.foldl (closerTrip p) t)

/-- The outer `WHERE` of the `UPDATE`: rows of the given route that are
still unlinked and whose `predicted_for` is strictly in the past. -/
def isCandidate (routeId : String) (nowJd : ℚ) (p : Prediction) : Bool :=
  decide (p.routeId = routeId) && p.actualTripId.isNone &&
    decide (p.predictedForJd < nowJd)

/-- The per-row effect of the `UPDATE`: a candidate row gets
`actual_trip_id := subquery` (possibly `NULL` again); other rows are
untouched. -/
def updateRow (trips : List Trip) (routeId : String) (nowJd : ℚ)
    (p : Prediction) : Prediction :=
  if isCandidate routeId nowJd p then
    { p with actualTripId := (bestMatchTrip trips p).map (fun t => t.id) }
  else p

/-- `linkPredictionsToActuals`: run the `UPDATE` over the predictions table
and return `result.meta.changes` — the number of rows matched by the
`WHERE` clause (SQLite counts a row as changed even when the subquery
returns `NULL` and the column is re-set to `NULL`). -/
def linkPredictionsToActuals (trips : List Trip) (preds : List Prediction)
    (routeId : String) (nowJd : ℚ) : List Prediction × ℕ :=
  (preds.map (updateRow trips routeId nowJd),
   preds.countP (isCandidate routeId nowJd))

/-- Number of records that were unlinked before a run and linked after it
(positionwise, since the `UPDATE` preserves row identity). -/
def newlyLinkedCount (before after : List Prediction) : ℕ :=
  (before.zip after).countP
    (fun q => q.1.actualTripId.isNone && q.2.actualTripId.isSome)

/-- The join `predictions p JOIN trips t ON p.actual_trip_id = t.id` of the
`prediction_accuracy` view: every (prediction, measurement) pair resolved
through a set link. -/
def linkedPairs (preds : List Prediction) (trips : List Trip) :
    List (Prediction × Trip) :=
  (preds.map (fun p =>
    (trips.filter (fun t => decide (p.actualTripId = some t.id))).map
      (fun t => (p, t)))).flatten

/-- Output row of `getPredictionAccuracy`. -/
structure AccuracyRow where
  direction : Direction
  day_of_week : ℕ
  hour_local : ℕ
  prediction_count : ℕ
  avg_predicted_minutes : ℚ
  avg_actual_minutes : ℚ
  avg_error_minutes : ℚ
  avg_bias_minutes : ℚ
  rmse_minutes : ℚ
deriving DecidableEq

/-- Prediction error in seconds: `predicted - actual` (positive when the
forecast over-estimated the duration). -/
def diffSeconds (q : Prediction × Trip) : ℚ :=
  (q.1.predictedDurationSeconds : ℚ) - (q.2.durationInTrafficSeconds : ℚ)

/-- The aggregates of one `GROUP BY` group of the `prediction_accuracy`
view, followed by the route query's `ROUND(... / 60.0, 1)`.
`rmse_minutes` is `ROUND(SQRT(AVG(diff²)) / 60, 1)`; since the mean square
is nonnegative this equals `⌊√(avg/3600) * 10 + 1/2⌋ / 10`, computed
exactly by `roundSqrtHalfUp` (see `roundSqrtHalfUp_eq`). -/
def mkAccuracyRow (d : Direction) (dow h : ℕ) (g : List (Prediction × Trip)) :
    AccuracyRow :=
  let n : ℚ := g.length
  let avgPredictedSeconds := (g.map (fun q => (q.1.predictedDurationSeconds : ℚ))).sum / n
  let avgActualSeconds := (g.map (fun q => (q.2.durationInTrafficSeconds : ℚ))).sum / n
  let avgErrorSeconds := (g.map (fun q => |diffSeconds q|)).sum / n
  let avgBiasSeconds := (g.map diffSeconds).sum / n
  let meanSquare := (g.map (fun q => (diffSeconds q)^2)).sum / n
  { direction := d
    day_of_week := dow
    hour_local := h
    prediction_count := g.length
    avg_predicted_minutes := sqliteRound1 (avgPredictedSeconds / 60)
    avg_actual_minutes := sqliteRound1 (avgActualSeconds / 60)
    avg_error_minutes := sqliteRound1 (avgErrorSeconds / 60)
    avg_bias_minutes := sqliteRound1 (avgBiasSeconds / 60)
    rmse_minutes := (roundSqrtHalfUp 10 (meanSquare / 3600) : ℚ) / 10 }

/-- Grouping key of the view after the route/model filter:
`(day_of_week, hour_local, direction)` — taken from the prediction row. -/
def accKey (q : Prediction × Trip) : ℕ × ℕ × Direction :=
  (q.1.dayOfWeek, q.1.hourLocal, q.1.direction)

/-- The route query's `ORDER BY day_of_week, hour_local, direction`
(SQLite text order puts `inbound` before `outbound`). -/
def accKeyLe (a b : ℕ × ℕ × Direction) : Prop :=
  (a.1 < b.1 ∨ (a.1 = b.1 ∧ (a.2.1 < b.2.1 ∨ (a.2.1 = b.2.1 ∧
    (a.2.2 = Direction.inbound ∨ b.2.2 = Direction.outbound)))))

instance : DecidableRel accKeyLe := fun a b => by
  unfold accKeyLe
  infer_instance

/-- `getPredictionAccuracy`: read the `prediction_accuracy` view filtered by
route and traffic model — join on the stored link, keep only forecasts made
strictly before their target (`predicted_at < predicted_for`), group by
`(day_of_week, hour_local, direction)` and aggregate each group. -/
def getPredictionAccuracy (preds : List Prediction) (trips : List Trip)
    (routeId : String) (model : TrafficModel) : List AccuracyRow :=
  let rows := (linkedPairs preds trips).filter (fun q =>
    decide (q.1.predictedAtJd < q.1.predictedForJd) &&
      decide (q.1.routeId = routeId) && decide (q.1.trafficModel = model))
  let keys := ((rows.map accKey).dedup).insertionSort accKeyLe
  keys.map (fun k =>
    mkAccuracyRow k.2.2 k.1 k.2.1 (rows.filter (fun q => decide (accKey q = k))))

/-- Spec-side description of one accuracy group: the linked
(prediction, measurement) pairs of the requested route and traffic model
whose forecast was made strictly before its target time and whose
prediction row carries the given bucket keys. -/
def participants (preds : List Prediction) (trips : List Trip)
    (routeId : String) (model : TrafficModel) (d : Direction) (dow h : ℕ) :
    List (Prediction × Trip) :=
  (linkedPairs preds trips).filter (fun q =>
    decide (q.1.predictedAtJd < q.1.predictedForJd ∧ q.1.routeId = routeId ∧
      q.1.trafficModel = model ∧ q.1.dayOfWeek = dow ∧ q.1.hourLocal = h ∧
      q.1.direction = d))

/-- The raw query parameters consumed by `parseFilters` (src/api.ts):
`url.searchParams.get` returns the string or `null`. -/
structure UrlParams where
  startDate : Option String
  endDate : Option String
  direction : Option String
  excludeHolidays : Option String
deriving DecidableEq

/-- `parseFilters` (src/api.ts): parse the query parameters into
`QueryFilters`.  The source performs no validation of the date bounds and
has no failure path; the `Except` codomain records that no input is
rejected (`Except.error` is never produced). -/
def parseFilters (u : UrlParams) : Except String QueryFilters :=
  Except.ok
    { startDate := u.startDate
      endDate := u.endDate
      direction :=
        match u.direction with
        | some "outbound" => some Direction.outbound
        | some "inbound" => some Direction.inbound
        | _ => none
      excludeHolidays := decide (u.excludeHolidays = some "true")
      routeId := none }

/-- A trip row fixture: route `r`, outbound, given id, julian-day instant
and congested duration in seconds. -/
def mkTripR (i : ℕ) (jd : ℚ) (secs : ℤ) : Trip :=
  { id := i
    measuredAtJd := jd
    measuredAtLocal := "2024-01-08T08:00:00"
    direction := Direction.outbound
    durationSeconds := secs
    durationInTrafficSeconds := secs
    dayOfWeek := 1
    hourLocal := 8
    isHoliday := false
    routeId := "r" }

/-- The spec's known array `[10,20,30,40,50]` of minute durations, as five
trips of 600..3000 seconds. -/
def exampleTrips : List Trip :=
  [mkTripR 1 0 600, mkTripR 2 0 1200, mkTripR 3 0 1800,
   mkTripR 4 0 2400, mkTripR 5 0 3000]

/-- A filter selecting only route `a`. -/
def filterRouteA : QueryFilters :=
  { startDate := none
    endDate := none
    direction := none
    excludeHolidays := false
    routeId := some "a" }

/-- A trip belonging to route `b` (so outside `filterRouteA`'s route). -/
def tripRouteB : Trip :=
  { id := 7
    measuredAtJd := 0
    measuredAtLocal := "2024-01-08T08:00:00"
    direction := Direction.outbound
    durationSeconds := 600
    durationInTrafficSeconds := 900
    dayOfWeek := 1
    hourLocal := 8
    isHoliday := false
    routeId := "b" }

/-- Query parameters whose `endDate` lies strictly before their
`startDate`. -/
def contradictoryParams : UrlParams :=
  { startDate := some "2024-02-01"
    endDate := some "2024-01-01"
    direction := none
    excludeHolidays := none }

/-- An unlinked prediction for route `r` whose target time (julian day 0)
is in the past relative to evaluation instant 1. -/
def predNoMatch : Prediction :=
  { id := 1
    predictedAtJd := -1
    predictedForJd := 0
    direction := Direction.outbound
    routeId := "r"
    predictedDurationSeconds := 600
    trafficModel := TrafficModel.best_guess
    dayOfWeek := 1
    hourLocal := 8
    isHoliday := false
    actualTripId := none }

/-- A measurement exactly 30 minutes (1/48 julian day) after the
`predNoMatch` target. -/
def trip30 : Trip := mkTripR 11 (1/48) 900

/-- A measurement exactly 31 minutes (31/1440 julian day) after the
`predNoMatch` target. -/
def trip31 : Trip := mkTripR 12 (31/1440) 900

/-- A prediction already linked to measurement 5. -/
def predLinked : Prediction :=
  { id := 2
    predictedAtJd := -1
    predictedForJd := 0
    direction := Direction.outbound
    routeId := "r"
    predictedDurationSeconds := 600
    trafficModel := TrafficModel.best_guess
    dayOfWeek := 1
    hourLocal := 8
    isHoliday := false
    actualTripId := some 5 }

/-- Distance, in minutes, between a trip's instant and a prediction's
target instant. -/
def tripDist (p : Prediction) (t : Trip) : ℚ :=
  minutesBetween t.measuredAtJd p.predictedForJd

/-- Evaluation form of the integer ceiling, used to compute `⌈x⌉` through
the floor of the negation. -/
theorem ceil_eq_neg_floor (a : ℚ) : ⌈a⌉ = -⌊-a⌋ := by
  rw [Int.floor_neg, neg_neg]

/-- `sqrtFloorQ` computes the floor of the real square root of a
nonnegative rational. -/
theorem sqrtFloorQ_eq_floor_sqrt (q : ℚ) (hq : 0 ≤ q) :
    sqrtFloorQ q = ⌊Real.sqrt (q : ℝ)⌋₊ := by
  have hdpos : 0 < q.den := q.pos
  have hnum : ((q.num.toNat : ℤ)) = q.num :=
    Int.toNat_of_nonneg (Rat.num_nonneg.mpr hq)
  have hnumR : ((q.num.toNat : ℕ) : ℝ) = ((q.num : ℤ) : ℝ) := by
    exact_mod_cast congrArg (fun z : ℤ => (z : ℝ)) hnum
  have hq' : (q : ℝ) = ((q.num.toNat * q.den : ℕ) : ℝ) / ((q.den : ℝ))^2 := by
    rw [Rat.cast_def]
    push_cast
    rw [hnumR]
    field_simp
    ring
  have hsq : Real.sqrt ((q : ℚ) : ℝ) =
      Real.sqrt ((q.num.toNat * q.den : ℕ) : ℝ) / (q.den : ℝ) := by
    rw [hq', Real.sqrt_div (by positivity), Real.sqrt_sq (by positivity)]
  rw [hsq, Nat.floor_div_nat, Real.nat_floor_real_sqrt_eq_nat_sqrt]
  rfl

/-- Evaluation rule for `sqrtFloorQ` by squaring: if `n² ≤ q < (n+1)²`
then `sqrtFloorQ q = n`. -/
theorem sqrtFloorQ_eq_of {q : ℚ} {n : ℕ} (h1 : ((n : ℚ))^2 ≤ q)
    (h2 : q < ((n : ℚ) + 1)^2) : sqrtFloorQ q = n := by
  have hq : 0 ≤ q := le_trans (by positivity) h1
  rw [sqrtFloorQ_eq_floor_sqrt q hq]
  rw [Nat.floor_eq_iff (Real.sqrt_nonneg _)]
  constructor
  · rw [Real.le_sqrt (by positivity) (by exact_mod_cast hq)]
    exact_mod_cast h1
  · rw [Real.sqrt_lt' (by positivity)]
    exact_mod_cast h2

/-- `roundSqrtHalfUp s v` is `Math.round (Math.sqrt v * s)` — the
half-up rounding of `√v * s` — for any nonnegative `v`. -/
theorem roundSqrtHalfUp_eq (s : ℕ) (v : ℚ) (hv : 0 ≤ v) :
    roundSqrtHalfUp s v = ⌊Real.sqrt (v : ℝ) * s + 1/2⌋₊ := by
  have h4 : (0:ℚ) ≤ ((4 * s^2 : ℕ) : ℚ) * v := by positivity
  have key : sqrtFloorQ (((4 * s^2 : ℕ) : ℚ) * v) =
      ⌊Real.sqrt ((((4 * s^2 : ℕ) : ℚ) * v : ℚ) : ℝ)⌋₊ :=
    sqrtFloorQ_eq_floor_sqrt _ h4
  have hsqrt : Real.sqrt ((((4 * s^2 : ℕ) : ℚ) * v : ℚ) : ℝ) =
      2 * (s : ℝ) * Real.sqrt (v : ℝ) := by
    push_cast
    rw [show (4 : ℝ) * (s : ℝ)^2 * (v : ℝ) = (2*(s : ℝ))^2 * (v : ℝ) by ring,
      Real.sqrt_mul (by positivity), Real.sqrt_sq (by positivity)]
  have step1 : roundSqrtHalfUp s v = (⌊2 * (s:ℝ) * Real.sqrt (v : ℝ)⌋₊ + 1) / 2 := by
    rw [roundSqrtHalfUp, key, hsqrt]
  rw [step1]
  have hshape : Real.sqrt (v : ℝ) * s + 1/2 =
      (2 * (s:ℝ) * Real.sqrt (v : ℝ) + 1) / ((2 : ℕ) : ℝ) := by
    push_cast
    ring
  rw [hshape, Nat.floor_div_nat, Nat.floor_add_one (by positivity)]

/-- Evaluation rule for `roundSqrtHalfUp` by squaring: for `m ≥ 1`, if
`(2m−1)² ≤ 4s²v < (2m+1)²` then `Math.round (√v * s) = m`. -/
theorem roundSqrtHalfUp_eval {s m : ℕ} {v : ℚ} (hv : 0 ≤ v) (hm : 1 ≤ m)
    (h1 : (2*(m:ℚ) - 1)^2 ≤ 4*(s:ℚ)^2*v)
    (h2 : 4*(s:ℚ)^2*v < (2*(m:ℚ) + 1)^2) :
    roundSqrtHalfUp s v = m := by
  rw [roundSqrtHalfUp_eq s v hv]
  have hvr : (0:ℝ) ≤ (v:ℝ) := by exact_mod_cast hv
  have hsq : (2*(s:ℝ)*Real.sqrt (v:ℝ))^2 = 4*(s:ℝ)^2*(v:ℝ) := by
    rw [mul_pow, mul_pow, Real.sq_sqrt hvr]
    ring
  have hmr : (1:ℝ) ≤ (m:ℝ) := by exact_mod_cast hm
  have hlow : 2*(m:ℝ) - 1 ≤ 2*(s:ℝ)*Real.sqrt (v:ℝ) := by
    have h4 : (2*(m:ℝ) - 1)^2 ≤ (2*(s:ℝ)*Real.sqrt (v:ℝ))^2 := by
      rw [hsq]
      exact_mod_cast h1
    have h5 := Real.sqrt_le_sqrt h4
    rw [Real.sqrt_sq (by linarith), Real.sqrt_sq (by positivity)] at h5
    exact h5
  have hhigh : 2*(s:ℝ)*Real.sqrt (v:ℝ) < 2*(m:ℝ) + 1 := by
    by_contra hcon
    push_neg at hcon
    have h4 : (2*(m:ℝ) + 1)^2 ≤ (2*(s:ℝ)*Real.sqrt (v:ℝ))^2 := by
      apply pow_le_pow_left (by linarith) hcon
    rw [hsq] at h4
    have h5 : 4*(s:ℝ)^2*(v:ℝ) < (2*(m:ℝ) + 1)^2 := by exact_mod_cast h2
    linarith
  rw [Nat.floor_eq_iff (by positivity)]
  exact ⟨by linarith, by linarith⟩

/-- The per-direction sample list is empty for both directions exactly when
the filter selects no rows at all. -/
theorem minutesFor_nil_iff (db : List Trip) (f : QueryFilters) :
    ((minutesFor db f Direction.inbound = [] ∧
      minutesFor db f Direction.outbound = []) ↔
      db.filter (fun t => analyticsWherePred f t) = []) := by
  constructor
  · intro h
    rcases h with ⟨h1, h2⟩
    unfold minutesFor at h1 h2
    rcases hfe : db.filter (fun t => analyticsWherePred f t) with _ | ⟨t, rest⟩
    · rfl
    · exfalso
      have hmem : t ∈ db.filter (fun t => analyticsWherePred f t) := by
        rw [hfe]
        exact List.mem_cons_self _ _
      cases hd : t.direction
      · have hm : t ∈ (db.filter (fun t => analyticsWherePred f t)).filter
            (fun t => decide (t.direction = Direction.outbound)) :=
          List.mem_filter.mpr ⟨hmem, by simp [hd]⟩
        exact List.ne_nil_of_mem (List.mem_map_of_mem _ hm) h2
      · have hm : t ∈ (db.filter (fun t => analyticsWherePred f t)).filter
            (fun t => decide (t.direction = Direction.inbound)) :=
          List.mem_filter.mpr ⟨hmem, by simp [hd]⟩
        exact List.ne_nil_of_mem (List.mem_map_of_mem _ hm) h1
  · intro h
    unfold minutesFor
    rw [h]
    exact ⟨rfl, rfl⟩

/-- `getStatisticalSummary` is empty exactly when the filter selects no
rows. -/
theorem getStatisticalSummary_nil_iff (db : List Trip) (f : QueryFilters) :
    (getStatisticalSummary db f = [] ↔
      db.filter (fun t => analyticsWherePred f t) = []) := by
  rw [← minutesFor_nil_iff db f]
  unfold getStatisticalSummary directionsSorted
  simp only [List.filterMap_cons, List.filterMap_nil, List.isEmpty_iff]
  by_cases h1 : minutesFor db f Direction.inbound = [] <;>
    by_cases h2 : minutesFor db f Direction.outbound = [] <;>
      simp [h1, h2]

/-- C10: for every filter that yields zero measurements,
`getTrafficPatterns` returns the empty list — no category rows at all. -/
theorem C10_no_rows_empty_patterns (db : List Trip) (f : QueryFilters)
    (h : db.filter (fun t => analyticsWherePred f t) = []) :
    getTrafficPatterns db f = [] := by
  have hs : getStatisticalSummary db f = [] :=
    (getStatisticalSummary_nil_iff db f).mpr h
  unfold getTrafficPatterns
  rw [hs]
  rfl

/-- Witness for C10 at the concrete empty database. -/
theorem C10_no_rows_empty_patterns_witness :
    getTrafficPatterns [] noFilter = [] :=
  C10_no_rows_empty_patterns [] noFilter rfl

/-- C8 counterexample: the two `buildWhereClause` translations disagree on
a filter carrying a `routeId` — the aggregate-data predicate (queries.ts)
accepts a trip of another route that the analytics predicate rejects. -/
theorem C8_counterexample :
    queriesWherePred filterRouteA tripRouteB = true ∧
    analyticsWherePred filterRouteA tripRouteB = false := by
  constructor <;> rfl

/-- C8 amended: the two translations agree on every filter whose `routeId`
is unset (the four conditions they share are built identically). -/
theorem C8_amended_same_rows_without_routeId (f : QueryFilters) (t : Trip)
    (h : f.routeId = none) :
    queriesWherePred f t = analyticsWherePred f t := by
  unfold queriesWherePred analyticsWherePred
  rw [h]
  simp

/-- Witness for the amended C8 at a concrete filter and trip. -/
theorem C8_amended_witness :
    queriesWherePred noFilter tripRouteB = analyticsWherePred noFilter tripRouteB :=
  C8_amended_same_rows_without_routeId noFilter tripRouteB rfl

/-- C9 counterexample: `parseFilters` accepts contradictory bounds — with
`endDate` strictly before `startDate` it still returns the parsed filter,
producing no validation error. -/
theorem C9_counterexample :
    ("2024-01-01" < "2024-02-01") ∧
    parseFilters contradictoryParams = Except.ok
      { startDate := some "2024-02-01"
        endDate := some "2024-01-01"
        direction := none
        excludeHolidays := false
        routeId := none } := by
  constructor
  · simp
    decide
  · rfl

/-- C9 amended: the boundary layer performs no validation at all — for
every input (contradictory bounds included) `parseFilters` succeeds and
passes the date bounds through unchanged to the core. -/
theorem C9_amended_no_validation (u : UrlParams) :
    ∃ q, parseFilters u = Except.ok q ∧
      q.startDate = u.startDate ∧ q.endDate = u.endDate :=
  ⟨_, rfl, rfl, rfl⟩

/-- `closerTrip` returns one of its two arguments. -/
theorem closerTrip_eq_or (p : Prediction) (b t : Trip) :
    closerTrip p b t = b ∨ closerTrip p b t = t := by
  unfold closerTrip
  split
  · exact Or.inr rfl
  · exact Or.inl rfl

/-- `closerTrip` never increases the distance to the target. -/
theorem closerTrip_dist_le (p : Prediction) (b t : Trip) :
    tripDist p (closerTrip p b t) ≤ tripDist p b ∧
    tripDist p (closerTrip p b t) ≤ tripDist p t := by
  unfold closerTrip tripDist
  split
  · exact ⟨le_of_lt (by assumption), le_refl _⟩
  · exact ⟨le_refl _, le_of_not_lt (by assumption)⟩

/-- The fold implementing `ORDER BY ABS(...) LIMIT 1` returns an element of
the candidate list whose distance is minimal. -/
theorem foldl_closerTrip_min (p : Prediction) :
    ∀ (l : List Trip) (t0 : Trip),
      l.foldl (closerTrip p) t0 ∈ t0 :: l ∧
      ∀ u ∈ t0 :: l, tripDist p (l.foldl (closerTrip p) t0) ≤ tripDist p u := by
  intro l
  induction l with
  | nil =>
    intro t0
    refine ⟨List.mem_cons_self _ _, ?_⟩
    intro u hu
    rcases List.mem_cons.mp hu with h | h
    · subst h
      exact le_refl _
    · cases h
  | cons x xs ih =>
    intro t0
    have hfold : (x :: xs).foldl (closerTrip p) t0 =
        xs.foldl (closerTrip p) (closerTrip p t0 x) := rfl
    rcases ih (closerTrip p t0 x) with ⟨hmem, hmin⟩
    constructor
    · rw [hfold]
      rcases List.mem_cons.mp hmem with h | h
      · rw [h]
        rcases closerTrip_eq_or p t0 x with h' | h'
        · rw [h']
          exact List.mem_cons_self _ _
        · rw [h']
          exact List.mem_cons_of_mem _ (List.mem_cons_self _ _)
      · exact List.mem_cons_of_mem _ (List.mem_cons_of_mem _ h)
    · intro u hu
      rw [hfold]
      rcases List.mem_cons.mp hu with h | h
      · rw [h]
        exact le_trans (hmin _ (List.mem_cons_self _ _))
          (closerTrip_dist_le p t0 x).1
      · rcases List.mem_cons.mp h with h' | h'
        · rw [h']
          exact le_trans (hmin _ (List.mem_cons_self _ _))
            (closerTrip_dist_le p t0 x).2
        · exact hmin _ (List.mem_cons_of_mem _ h')

/-- Membership in `eligibleTrips` unfolded to its three conditions. -/
theorem mem_eligibleTrips_iff (trips : List Trip) (p : Prediction) (t : Trip) :
    t ∈ eligibleTrips trips p ↔
      t ∈ trips ∧ t.routeId = p.routeId ∧ t.direction = p.direction ∧
        minutesBetween t.measuredAtJd p.predictedForJd ≤ 30 := by
  unfold eligibleTrips
  rw [List.mem_filter]
  simp [and_assoc]

/-- C3: the linker resolves a candidate prediction through the correlated
subquery `bestMatchTrip`, which (i) only ever selects a measurement of the
same route and direction lying within the 30-minute tolerance window and
closest to `predicted_for` among all eligible measurements, (ii) selects
nothing when every measurement of the route/direction is farther than 30
minutes away — even a sole candidate — and, concretely, a measurement
exactly 30 minutes away is selected while one at 31 minutes is not. -/
theorem C3_link_selects_closest_within_30min :
    (∀ (trips : List Trip) (p : Prediction) (t : Trip),
      bestMatchTrip trips p = some t →
        t ∈ trips ∧ t.routeId = p.routeId ∧ t.direction = p.direction ∧
        minutesBetween t.measuredAtJd p.predictedForJd ≤ 30 ∧
        (∀ t' ∈ trips, t'.routeId = p.routeId → t'.direction = p.direction →
          minutesBetween t'.measuredAtJd p.predictedForJd ≤ 30 →
          minutesBetween t.measuredAtJd p.predictedForJd ≤
            minutesBetween t'.measuredAtJd p.predictedForJd)) ∧
    (∀ (trips : List Trip) (p : Prediction),
      (∀ t ∈ trips, t.routeId = p.routeId → t.direction = p.direction →
        30 < minutesBetween t.measuredAtJd p.predictedForJd) →
      bestMatchTrip trips p = none) ∧
    (∀ (trips : List Trip) (rid : String) (now : ℚ) (p : Prediction),
      isCandidate rid now p = true →
        (updateRow trips rid now p).actualTripId =
          (bestMatchTrip trips p).map (fun t => t.id)) ∧
    bestMatchTrip [trip30] predNoMatch = some trip30 ∧
    bestMatchTrip [trip31] predNoMatch = none := by
  refine ⟨?_, ?_, ?_, ?_, ?_⟩
  · intro trips p t h
    unfold bestMatchTrip at h
    rcases he : eligibleTrips trips p with _ | ⟨t0, rest⟩
    · rw [he] at h
      cases h
    · rw [he] at h
      have hsel : rest.foldl (closerTrip p) t0 = t := by
        exact Option.some_injective _ h
      rcases foldl_closerTrip_min p rest t0 with ⟨hmem, hmin⟩
      rw [hsel] at hmem hmin
      have hmem' : t ∈ eligibleTrips trips p := by
        rw [he]
        exact hmem
      rcases (mem_eligibleTrips_iff trips p t).mp hmem' with ⟨h1, h2, h3, h4⟩
      refine ⟨h1, h2, h3, h4, ?_⟩
      intro t' ht' hr hd hw
      have ht'e : t' ∈ eligibleTrips trips p :=
        (mem_eligibleTrips_iff trips p t').mpr ⟨ht', hr, hd, hw⟩
      rw [he] at ht'e
      exact hmin t' ht'e
  · intro trips p h
    unfold bestMatchTrip
    have he : eligibleTrips trips p = [] := by
      rw [eligibleTrips, List.filter_eq_nil_iff]
      intro t ht hcon
      simp only [Bool.and_eq_true, decide_eq_true_eq] at hcon
      rcases hcon with ⟨⟨h1, h2⟩, h3⟩
      exact absurd h3 (not_le.mpr (h t ht h1 h2))
    rw [he]
  · intro trips rid now p h
    unfold updateRow
    rw [h]
    rfl
  · unfold bestMatchTrip
    have he : eligibleTrips [trip30] predNoMatch = [trip30] := by
      unfold eligibleTrips
      rw [List.filter_cons]
      norm_num [trip30, mkTripR, predNoMatch, minutesBetween, abs_le]
    rw [he]
    rfl
  · unfold bestMatchTrip
    have he : eligibleTrips [trip31] predNoMatch = [] := by
      unfold eligibleTrips
      rw [List.filter_cons]
      norm_num [trip31, mkTripR, predNoMatch, minutesBetween, abs_le]
    rw [he]

/-- Witness for C3: part (ii) applied at the concrete 31-minute fixture,
whose sole candidate lies outside the tolerance window. -/
theorem C3_witness : bestMatchTrip [trip31] predNoMatch = none := by
  refine C3_link_selects_closest_within_30min.2.1 [trip31] predNoMatch ?_
  intro t ht hr hd
  rw [List.mem_singleton.mp ht]
  norm_num [minutesBetween, trip31, mkTripR, predNoMatch, lt_abs]

/-- A row that fails the `UPDATE`'s `WHERE` clause is untouched. -/
theorem updateRow_not_candidate (trips : List Trip) (rid : String) (now : ℚ)
    (p : Prediction) (h : isCandidate rid now p = false) :
    updateRow trips rid now p = p := by
  unfold updateRow
  rw [h]
  simp

/-- An already-linked row is never a candidate, hence never re-linked or
overwritten. -/
theorem updateRow_linked (trips : List Trip) (rid : String) (now : ℚ)
    (p : Prediction) (k : ℕ) (h : p.actualTripId = some k) :
    updateRow trips rid now p = p := by
  apply updateRow_not_candidate
  unfold isCandidate
  rw [h]
  simp

/-- Re-setting an already-`none` link field is the identity. -/
theorem eta_actualTripId (p : Prediction) (h : p.actualTripId = none) :
    { p with actualTripId := none } = p := by
  cases p
  simp_all

/-- One `UPDATE` pass is idempotent on each row: a second pass with the
same measurement set changes nothing. -/
theorem updateRow_idem (trips : List Trip) (rid : String) (now : ℚ)
    (p : Prediction) :
    updateRow trips rid now (updateRow trips rid now p) =
      updateRow trips rid now p := by
  by_cases h : isCandidate rid now p = true
  · have hnone : p.actualTripId = none := by
      unfold isCandidate at h
      simp only [Bool.and_eq_true] at h
      exact Option.isNone_iff_eq_none.mp h.1.2
    rcases hb : bestMatchTrip trips p with _ | t
    · have hq : updateRow trips rid now p = p := by
        unfold updateRow
        rw [h, hb]
        simp only [if_true, Option.map_none']
        exact eta_actualTripId p hnone
      rw [hq]
      exact hq
    · have hq : (updateRow trips rid now p).actualTripId = some t.id := by
        unfold updateRow
        rw [h, hb]
        simp
      exact updateRow_linked trips rid now _ t.id hq
  · have h' : isCandidate rid now p = false := by
      cases hc : isCandidate rid now p
      · rfl
      · exact absurd hc h
    rw [updateRow_not_candidate trips rid now p h']
    exact updateRow_not_candidate trips rid now p h'

/-- A list paired with itself contains no row that went from unlinked to
linked. -/
theorem newlyLinkedCount_self (l : List Prediction) :
    newlyLinkedCount l l = 0 := by
  unfold newlyLinkedCount
  induction l with
  | nil => rfl
  | cons a l ih =>
    rw [List.zip_cons_cons, List.countP_cons]
    cases ha : a.actualTripId <;> simp [ha, ih]

/-- Running the linker twice with the same measurement set leaves the
predictions table exactly as after the first run. -/
theorem link_twice_state (trips : List Trip) (preds : List Prediction)
    (rid : String) (now : ℚ) :
    (linkPredictionsToActuals trips
        (linkPredictionsToActuals trips preds rid now).1 rid now).1 =
      (linkPredictionsToActuals trips preds rid now).1 := by
  unfold linkPredictionsToActuals
  simp only [List.map_map]
  apply List.map_congr_left
  intro p _
  exact updateRow_idem trips rid now p

/-- C2 counterexample: with one past, unlinked prediction and no
measurement at all, the first call returns `1`, the second call also
returns `1`, yet the second call links zero new records — the claim that
the returned count equals the number of newly linked records (and is `0`
on the second call) fails. -/
theorem C2_counterexample :
    (linkPredictionsToActuals [] [predNoMatch] "r" 1).2 = 1 ∧
    (linkPredictionsToActuals []
        (linkPredictionsToActuals [] [predNoMatch] "r" 1).1 "r" 1).2 = 1 ∧
    newlyLinkedCount (linkPredictionsToActuals [] [predNoMatch] "r" 1).1
      (linkPredictionsToActuals []
        (linkPredictionsToActuals [] [predNoMatch] "r" 1).1 "r" 1).1 = 0 := by
  refine ⟨rfl, rfl, rfl⟩

/-- C2 amended: re-running the linker is idempotent on the stored state —
already-linked records are skipped and never overwritten, and the second
call links zero new records — but the returned count is
`result.meta.changes`: the number of candidate rows (unlinked, with
`predicted_for` in the past), which is `0` only when no unlinked past
prediction remains. -/
theorem C2_amended_idempotent_state_count_is_candidates
    (trips : List Trip) (preds : List Prediction) (rid : String) (now : ℚ) :
    (∀ (p : Prediction) (k : ℕ), p.actualTripId = some k →
      updateRow trips rid now p = p) ∧
    (linkPredictionsToActuals trips
        (linkPredictionsToActuals trips preds rid now).1 rid now).1 =
      (linkPredictionsToActuals trips preds rid now).1 ∧
    newlyLinkedCount (linkPredictionsToActuals trips preds rid now).1
      (linkPredictionsToActuals trips
        (linkPredictionsToActuals trips preds rid now).1 rid now).1 = 0 ∧
    (linkPredictionsToActuals trips
        (linkPredictionsToActuals trips preds rid now).1 rid now).2 =
      ((linkPredictionsToActuals trips preds rid now).1).countP
        (isCandidate rid now) := by
  refine ⟨fun p k h => updateRow_linked trips rid now p k h,
    link_twice_state trips preds rid now, ?_, rfl⟩
  rw [link_twice_state trips preds rid now]
  exact newlyLinkedCount_self _

/-- Witness for the amended C2: the skip-linked clause applied to a
concrete linked prediction. -/
theorem C2_amended_witness : updateRow [] "r" 1 predLinked = predLinked :=
  (C2_amended_idempotent_state_count_is_candidates [] [predLinked] "r" 1).1
    predLinked 5 rfl

/-- Sorting preserves non-emptiness. -/
theorem insertionSort_ne_nil (values : List ℚ) (h : values ≠ []) :
    values.insertionSort (· ≤ ·) ≠ [] := by
  intro hn
  apply h
  have hp := List.perm_insertionSort (· ≤ ·) values
  rw [hn] at hp
  exact hp.symm.eq_nil

/-- Order statistics of a sorted list are monotone in the index. -/
theorem sorted_getD_mono (s : List ℚ) (hs : List.Sorted (· ≤ ·) s)
    {i j : ℕ} (hij : i ≤ j) (hj : j < s.length) :
    s.getD i 0 ≤ s.getD j 0 := by
  have hi : i < s.length := lt_of_le_of_lt hij hj
  rw [List.getD_eq_get s 0 hi, List.getD_eq_get s 0 hj]
  exact List.Sorted.rel_get_of_le hs hij

/-- The interpolation index of `percentile` lies in `[0, n−1]` for
`p ∈ [0, 100]`. -/
theorem percentile_index_bounds (s : List ℚ) (hne : s ≠ []) (p : ℚ)
    (hp0 : 0 ≤ p) (hp1 : p ≤ 100) :
    0 ≤ p / 100 * ((s.length : ℚ) - 1) ∧
    p / 100 * ((s.length : ℚ) - 1) ≤ (s.length : ℚ) - 1 := by
  have hn : 1 ≤ s.length := List.length_pos.mpr hne
  have hn' : (1:ℚ) ≤ (s.length : ℚ) := by exact_mod_cast hn
  constructor
  · have : (0:ℚ) ≤ (s.length : ℚ) - 1 := by linarith
    positivity
  · have h1 : p / 100 ≤ 1 := by linarith
    have h2 : (0:ℚ) ≤ (s.length : ℚ) - 1 := by linarith
    nlinarith

/-- `toNat` bounds for the floor and ceiling interpolation indices. -/
theorem percentile_index_toNat_lt (s : List ℚ) (hne : s ≠ []) (p : ℚ)
    (hp0 : 0 ≤ p) (hp1 : p ≤ 100) :
    (⌊p / 100 * ((s.length : ℚ) - 1)⌋).toNat < s.length ∧
    (⌈p / 100 * ((s.length : ℚ) - 1)⌉).toNat < s.length := by
  rcases percentile_index_bounds s hne p hp0 hp1 with ⟨hx0, hx1⟩
  have hn : 1 ≤ s.length := List.length_pos.mpr hne
  have hcl : ⌈p / 100 * ((s.length : ℚ) - 1)⌉ ≤ (s.length : ℤ) - 1 := by
    rw [Int.ceil_le]
    push_cast
    exact hx1
  have hflle : ⌊p / 100 * ((s.length : ℚ) - 1)⌋ ≤
      ⌈p / 100 * ((s.length : ℚ) - 1)⌉ := Int.floor_le_ceil _
  constructor
  · have := le_trans hflle hcl
    omega
  · omega

/-- Closed form of `percentile` when the index is an integer. -/
theorem percentile_eq_single (s : List ℚ) (hne : s ≠ []) (p : ℚ)
    (h : ⌊p / 100 * ((s.length : ℚ) - 1)⌋ = ⌈p / 100 * ((s.length : ℚ) - 1)⌉) :
    percentile s p = s.getD (⌊p / 100 * ((s.length : ℚ) - 1)⌋).toNat 0 := by
  have hemp : s.isEmpty = false := by
    cases s
    · exact absurd rfl hne
    · rfl
  unfold percentile
  rw [hemp]
  simp only [Bool.false_eq_true, if_false]
  rw [if_pos h]

/-- Closed form of `percentile` when the index is fractional. -/
theorem percentile_eq_interp (s : List ℚ) (hne : s ≠ []) (p : ℚ)
    (h : ⌊p / 100 * ((s.length : ℚ) - 1)⌋ ≠ ⌈p / 100 * ((s.length : ℚ) - 1)⌉) :
    percentile s p =
      s.getD (⌊p / 100 * ((s.length : ℚ) - 1)⌋).toNat 0 *
        (1 - (p / 100 * ((s.length : ℚ) - 1) -
          ⌊p / 100 * ((s.length : ℚ) - 1)⌋)) +
      s.getD (⌈p / 100 * ((s.length : ℚ) - 1)⌉).toNat 0 *
        (p / 100 * ((s.length : ℚ) - 1) - ⌊p / 100 * ((s.length : ℚ) - 1)⌋) := by
  have hemp : s.isEmpty = false := by
    cases s
    · exact absurd rfl hne
    · rfl
  unfold percentile
  rw [hemp]
  simp only [Bool.false_eq_true, if_false]
  rw [if_neg h]

/-- The interpolated percentile lies between its two order statistics. -/
theorem percentile_sandwich (s : List ℚ) (hs : List.Sorted (· ≤ ·) s)
    (hne : s ≠ []) (p : ℚ) (hp0 : 0 ≤ p) (hp1 : p ≤ 100) :
    s.getD (⌊p / 100 * ((s.length : ℚ) - 1)⌋).toNat 0 ≤ percentile s p ∧
    percentile s p ≤ s.getD (⌈p / 100 * ((s.length : ℚ) - 1)⌉).toNat 0 := by
  rcases percentile_index_toNat_lt s hne p hp0 hp1 with ⟨hfl, hcl⟩
  rcases percentile_index_bounds s hne p hp0 hp1 with ⟨hx0, _⟩
  have hfl0 : 0 ≤ ⌊p / 100 * ((s.length : ℚ) - 1)⌋ := Int.floor_nonneg.mpr hx0
  have hflle : ⌊p / 100 * ((s.length : ℚ) - 1)⌋ ≤
      ⌈p / 100 * ((s.length : ℚ) - 1)⌉ := Int.floor_le_ceil _
  have hmono : s.getD (⌊p / 100 * ((s.length : ℚ) - 1)⌋).toNat 0 ≤
      s.getD (⌈p / 100 * ((s.length : ℚ) - 1)⌉).toNat 0 :=
    sorted_getD_mono s hs (by omega) hcl
  by_cases h : ⌊p / 100 * ((s.length : ℚ) - 1)⌋ =
      ⌈p / 100 * ((s.length : ℚ) - 1)⌉
  · rw [percentile_eq_single s hne p h]
    refine ⟨le_refl _, ?_⟩
    rw [h]
  · rw [percentile_eq_interp s hne p h]
    have hw0 : 0 ≤ p / 100 * ((s.length : ℚ) - 1) -
        ⌊p / 100 * ((s.length : ℚ) - 1)⌋ := by
      have := Int.floor_le (p / 100 * ((s.length : ℚ) - 1))
      linarith
    have hw1 : p / 100 * ((s.length : ℚ) - 1) -
        ⌊p / 100 * ((s.length : ℚ) - 1)⌋ ≤ 1 := by
      have := Int.lt_floor_add_one (p / 100 * ((s.length : ℚ) - 1))
      linarith
    constructor
    · nlinarith
    · nlinarith

/-- For a fractional index the ceiling is the floor plus one. -/
theorem ceil_eq_floor_add_one_of_ne (x : ℚ) (h : ⌊x⌋ ≠ ⌈x⌉) :
    ⌈x⌉ = ⌊x⌋ + 1 := by
  have h1 : ⌈x⌉ ≤ ⌊x⌋ + 1 := Int.ceil_le_floor_add_one x
  have h2 : ⌊x⌋ ≤ ⌈x⌉ := Int.floor_le_ceil x
  omega

/-- Monotonicity of `percentile` in `p` on a sorted list. -/
theorem percentile_mono (s : List ℚ) (hs : List.Sorted (· ≤ ·) s)
    (hne : s ≠ []) {p q : ℚ} (hp0 : 0 ≤ p) (hpq : p ≤ q) (hq1 : q ≤ 100) :
    percentile s p ≤ percentile s q := by
  have hq0 : 0 ≤ q := le_trans hp0 hpq
  have hp1 : p ≤ 100 := le_trans hpq hq1
  have hn : 1 ≤ s.length := List.length_pos.mpr hne
  have hn' : (1:ℚ) ≤ (s.length : ℚ) := by exact_mod_cast hn
  have hij : p / 100 * ((s.length : ℚ) - 1) ≤ q / 100 * ((s.length : ℚ) - 1) := by
    have h2 : (0:ℚ) ≤ (s.length : ℚ) - 1 := by linarith
    have h3 : p / 100 ≤ q / 100 := by linarith
    nlinarith
  rcases percentile_index_toNat_lt s hne p hp0 hp1 with ⟨hfli, hcli⟩
  rcases percentile_index_toNat_lt s hne q hq0 hq1 with ⟨hflj, hclj⟩
  rcases percentile_sandwich s hs hne p hp0 hp1 with ⟨hloi, hhii⟩
  rcases percentile_sandwich s hs hne q hq0 hq1 with ⟨hloj, hhij⟩
  have hflij : ⌊p / 100 * ((s.length : ℚ) - 1)⌋ ≤
      ⌊q / 100 * ((s.length : ℚ) - 1)⌋ := Int.floor_le_floor hij
  rcases lt_or_eq_of_le hflij with hlt | heq
  · -- strictly larger floor: pass through the intermediate order statistic
    have hstep : (⌈p / 100 * ((s.length : ℚ) - 1)⌉).toNat ≤
        (⌊q / 100 * ((s.length : ℚ) - 1)⌋).toNat := by
      have := Int.ceil_le_floor_add_one (p / 100 * ((s.length : ℚ) - 1))
      omega
    exact le_trans hhii (le_trans (sorted_getD_mono s hs hstep hflj) hloj)
  · by_cases hint : ⌊p / 100 * ((s.length : ℚ) - 1)⌋ =
        ⌈p / 100 * ((s.length : ℚ) - 1)⌉
    · -- integer index for p: its value is the shared lower order statistic
      rw [percentile_eq_single s hne p hint]
      rw [heq]
      exact hloj
    · -- both indices fractional with the same floor
      have hqint : ⌊q / 100 * ((s.length : ℚ) - 1)⌋ ≠
          ⌈q / 100 * ((s.length : ℚ) - 1)⌉ := by
        intro hc
        have hqi : ((⌊q / 100 * ((s.length : ℚ) - 1)⌋ : ℚ)) =
            q / 100 * ((s.length : ℚ) - 1) := by
          have h1 := Int.floor_le (q / 100 * ((s.length : ℚ) - 1))
          have h2 := Int.le_ceil (q / 100 * ((s.length : ℚ) - 1))
          rw [← hc] at h2
          exact le_antisymm h1 h2
        have hple : q / 100 * ((s.length : ℚ) - 1) ≤
            p / 100 * ((s.length : ℚ) - 1) := by
          rw [← hqi, ← heq]
          exact Int.floor_le _
        have hxeq : p / 100 * ((s.length : ℚ) - 1) =
            q / 100 * ((s.length : ℚ) - 1) := le_antisymm hij hple
        apply hint
        rw [hxeq]
        exact hc
      have hceq : ⌈q / 100 * ((s.length : ℚ) - 1)⌉ =
          ⌈p / 100 * ((s.length : ℚ) - 1)⌉ := by
        rw [ceil_eq_floor_add_one_of_ne _ hint,
          ceil_eq_floor_add_one_of_ne _ hqint, heq]
      rw [percentile_eq_interp s hne p hint, percentile_eq_interp s hne q hqint,
        hceq, heq]
      have hmono : s.getD (⌊q / 100 * ((s.length : ℚ) - 1)⌋).toNat 0 ≤
          s.getD (⌈p / 100 * ((s.length : ℚ) - 1)⌉).toNat 0 := by
        apply sorted_getD_mono s hs ?_ ?_
        · rw [← heq]
          have := ceil_eq_floor_add_one_of_ne _ hint
          have h0 : 0 ≤ ⌊p / 100 * ((s.length : ℚ) - 1)⌋ :=
            Int.floor_nonneg.mpr (percentile_index_bounds s hne p hp0 hp1).1
          omega
        · exact hcli
      have hwij : p / 100 * ((s.length : ℚ) - 1) -
          ⌊q / 100 * ((s.length : ℚ) - 1)⌋ ≤
          q / 100 * ((s.length : ℚ) - 1) -
          ⌊q / 100 * ((s.length : ℚ) - 1)⌋ := by linarith
      nlinarith [hwij, hmono]

/-- Decision-procedure evaluation for concrete direction comparisons. -/
theorem decide_dir_oo : decide (Direction.outbound = Direction.outbound) = true := rfl

/-- Decision-procedure evaluation for concrete direction comparisons. -/
theorem decide_dir_oi : decide (Direction.outbound = Direction.inbound) = false := rfl

/-- Decision-procedure evaluation for concrete direction comparisons. -/
theorem decide_dir_io : decide (Direction.inbound = Direction.outbound) = false := rfl

/-- Decision-procedure evaluation for concrete direction comparisons. -/
theorem decide_dir_ii : decide (Direction.inbound = Direction.inbound) = true := rfl

/-- `Math.round` is monotone. -/
theorem jsRound_mono {a b : ℚ} (h : a ≤ b) : jsRound a ≤ jsRound b :=
  Int.floor_le_floor (by linarith)

/-- Every row of a direction's reliability block comes from one confidence
level of a non-empty sample list. -/
theorem mem_relBlock_elim (db : List Trip) (f : QueryFilters)
    (levels : List ℚ) (d : Direction) (r : ReliabilityRow)
    (h : r ∈ relBlock db f levels d) :
    minutesFor db f d ≠ [] ∧ ∃ level ∈ levels,
      r = { direction := d
            confidence_level := level
            duration_minutes := jsRound (percentile
              ((minutesFor db f d).insertionSort (· ≤ ·)) level) } := by
  unfold relBlock at h
  by_cases he : (minutesFor db f d).isEmpty = true
  · rw [if_pos he] at h
    cases h
  · rw [if_neg he] at h
    rcases List.mem_map.mp h with ⟨level, hlev, hr⟩
    refine ⟨?_, level, hlev, hr.symm⟩
    intro hnil
    apply he
    rw [hnil]
    rfl

/-- Membership in the reliability output means membership in one
direction's block. -/
theorem mem_reliability_elim (db : List Trip) (f : QueryFilters)
    (levels : List ℚ) (r : ReliabilityRow)
    (h : r ∈ getReliabilityMetrics db f levels) :
    r ∈ relBlock db f levels Direction.inbound ∨
    r ∈ relBlock db f levels Direction.outbound := by
  unfold getReliabilityMetrics directionsSorted at h
  simp only [List.map_cons, List.map_nil, List.flatten_cons, List.flatten_nil,
    List.append_nil, List.mem_append] at h
  exact h

/-- The default confidence levels all lie in `[0, 100]`. -/
theorem defaultConfidenceLevels_bounds :
    ∀ l ∈ defaultConfidenceLevels, (0:ℚ) ≤ l ∧ l ≤ 100 := by
  intro l hl
  fin_cases hl <;> norm_num

/-- A degenerate single-sample percentile returns the sample for every
level. -/
theorem percentile_single (x l : ℚ) : percentile [x] l = x := by
  unfold percentile
  norm_num

/-- A reliability block of another direction contributes nothing to a
direction filter. -/
theorem filter_relBlock_ne (db : List Trip) (f : QueryFilters)
    (levels : List ℚ) {d d' : Direction} (hne : d' ≠ d) :
    (relBlock db f levels d').filter (fun r => decide (r.direction = d)) = [] := by
  rw [List.filter_eq_nil_iff]
  intro r hr
  rcases mem_relBlock_elim db f levels d' r hr with ⟨-, level, -, hform⟩
  rw [hform]
  simp [hne]

/-- A direction's own block passes its direction filter unchanged. -/
theorem filter_relBlock_self (db : List Trip) (f : QueryFilters)
    (levels : List ℚ) (d : Direction) :
    (relBlock db f levels d).filter (fun r => decide (r.direction = d)) =
      relBlock db f levels d := by
  rw [List.filter_eq_self]
  intro r hr
  rcases mem_relBlock_elim db f levels d r hr with ⟨-, level, -, hform⟩
  rw [hform]
  simp

/-- C7: for a fixed direction and filter, the reported `duration_minutes`
is non-decreasing as the confidence level increases across the default
levels 50→75→80→90→95; and a direction holding a single sample still
yields one row per level, each equal to that sample rounded to the nearest
integer minute. -/
theorem C7_reliability_monotone_and_single_sample :
    (∀ (db : List Trip) (f : QueryFilters) (r1 r2 : ReliabilityRow),
      r1 ∈ getReliabilityMetrics db f defaultConfidenceLevels →
      r2 ∈ getReliabilityMetrics db f defaultConfidenceLevels →
      r1.direction = r2.direction →
      r1.confidence_level ≤ r2.confidence_level →
      r1.duration_minutes ≤ r2.duration_minutes) ∧
    (∀ (db : List Trip) (f : QueryFilters) (d : Direction) (x : ℚ),
      minutesFor db f d = [x] →
      (getReliabilityMetrics db f defaultConfidenceLevels).filter
          (fun r => decide (r.direction = d)) =
        defaultConfidenceLevels.map (fun level =>
          { direction := d
            confidence_level := level
            duration_minutes := jsRound x })) := by
  constructor
  · intro db f r1 r2 h1 h2 hdir hlev
    have hblock : ∀ (r : ReliabilityRow) (d : Direction),
        r ∈ relBlock db f defaultConfidenceLevels d →
        r.direction = d ∧ minutesFor db f d ≠ [] ∧
        ∃ level ∈ defaultConfidenceLevels, r.confidence_level = level ∧
          r.duration_minutes = jsRound (percentile
            ((minutesFor db f d).insertionSort (· ≤ ·)) level) := by
      intro r d hr
      rcases mem_relBlock_elim db f defaultConfidenceLevels d r hr with
        ⟨hnil, level, hlev', hform⟩
      rw [hform]
      exact ⟨rfl, hnil, level, hlev', rfl, rfl⟩
    have key : ∀ (d : Direction),
        r1 ∈ relBlock db f defaultConfidenceLevels d →
        r2 ∈ relBlock db f defaultConfidenceLevels d →
        r1.duration_minutes ≤ r2.duration_minutes := by
      intro d hr1 hr2
      rcases hblock r1 d hr1 with ⟨-, hnil, l1, hl1, hcl1, hd1⟩
      rcases hblock r2 d hr2 with ⟨-, -, l2, hl2, hcl2, hd2⟩
      rw [hd1, hd2]
      apply jsRound_mono
      apply percentile_mono _ (List.sorted_insertionSort _ _)
        (insertionSort_ne_nil _ hnil)
      · exact (defaultConfidenceLevels_bounds l1 hl1).1
      · rw [← hcl1, ← hcl2]
        exact hlev
      · exact (defaultConfidenceLevels_bounds l2 hl2).2
    rcases mem_reliability_elim db f defaultConfidenceLevels r1 h1 with ha | ha <;>
      rcases mem_reliability_elim db f defaultConfidenceLevels r2 h2 with hb | hb
    · exact key Direction.inbound ha hb
    · exfalso
      rcases hblock r1 Direction.inbound ha with ⟨e1, -⟩
      rcases hblock r2 Direction.outbound hb with ⟨e2, -⟩
      rw [e1, e2] at hdir
      cases hdir
    · exfalso
      rcases hblock r1 Direction.outbound ha with ⟨e1, -⟩
      rcases hblock r2 Direction.inbound hb with ⟨e2, -⟩
      rw [e1, e2] at hdir
      cases hdir
    · exact key Direction.outbound ha hb
  · intro db f d x hx
    have hxe : (minutesFor db f d).isEmpty = false := by
      rw [hx]
      rfl
    have hself : relBlock db f defaultConfidenceLevels d =
        defaultConfidenceLevels.map (fun level =>
          { direction := d
            confidence_level := level
            duration_minutes := jsRound x }) := by
      unfold relBlock
      rw [if_neg (by rw [hxe]; exact Bool.false_ne_true)]
      rw [hx]
      have hsing : ([x] : List ℚ).insertionSort (· ≤ ·) = [x] := rfl
      rw [hsing]
      apply List.map_congr_left
      intro level _
      rw [percentile_single]
    have hsplit : getReliabilityMetrics db f defaultConfidenceLevels =
        relBlock db f defaultConfidenceLevels Direction.inbound ++
        relBlock db f defaultConfidenceLevels Direction.outbound := by
      unfold getReliabilityMetrics directionsSorted
      simp
    rw [hsplit, List.filter_append]
    cases d
    · rw [filter_relBlock_ne db f _ (by intro hc; cases hc),
        filter_relBlock_self, List.nil_append, hself]
    · rw [filter_relBlock_self, filter_relBlock_ne db f _ (by intro hc; cases hc),
        List.append_nil, hself]
theorem floor_eq_ceil_imp (x : ℚ) (h : ⌊x⌋ = ⌈x⌉) : ((⌊x⌋ : ℚ)) = x := by
  have h1 := Int.floor_le x
  have h2 := Int.le_ceil x
  rw [← h] at h2
  exact le_antisymm h1 h2

/-- The implementation's `percentile` agrees with the specification's
linear-interpolation formula on every non-empty list. -/
theorem percentile_eq_spec (s : List ℚ) (hs : s ≠ []) (p : ℚ) :
    percentile s p = specPercentile s p := by
  have hne : s.isEmpty = false := by
    cases s
    · exact absurd rfl hs
    · rfl
  unfold percentile specPercentile
  rw [hne]
  simp only [Bool.false_eq_true, if_false]
  by_cases h : ⌊p / 100 * ((s.length : ℚ) - 1)⌋ = ⌈p / 100 * ((s.length : ℚ) - 1)⌉
  · rw [if_pos h]
    have h0 : ((⌊p / 100 * ((s.length : ℚ) - 1)⌋ : ℚ)) =
        p / 100 * ((s.length : ℚ) - 1) := floor_eq_ceil_imp _ h
    rw [show p / 100 * ((s.length : ℚ) - 1) -
        (⌊p / 100 * ((s.length : ℚ) - 1)⌋ : ℚ) = 0 from by rw [h0]; ring]
    ring
  · rw [if_neg h]
    ring

/-- The population variance is nonnegative. -/
theorem popVariance_nonneg (samples : List ℚ) : 0 ≤ popVariance samples := by
  unfold popVariance
  apply div_nonneg
  · apply List.sum_nonneg
    intro x hx
    rcases List.mem_map.mp hx with ⟨v, _, hv⟩
    rw [← hv]
    positivity
  · positivity

/-- A direction with at least one sample contributes its summary to the
`getStatisticalSummary` output. -/
theorem mkSummary_mem (db : List Trip) (f : QueryFilters) (d : Direction)
    (h : minutesFor db f d ≠ []) :
    mkSummary d (minutesFor db f d) ∈ getStatisticalSummary db f := by
  unfold getStatisticalSummary directionsSorted
  simp only [List.filterMap_cons, List.filterMap_nil, List.isEmpty_iff]
  cases d
  · by_cases hin : minutesFor db f Direction.inbound = [] <;> simp [hin, h]
  · by_cases hout : minutesFor db f Direction.outbound = [] <;> simp [hout, h]

/-- The spec's example database selects exactly the minute samples
`[10,20,30,40,50]` for the outbound direction. -/
theorem minutesFor_example_outbound :
    minutesFor exampleTrips noFilter Direction.outbound =
      [10, 20, 30, 40, 50] := by
  norm_num [minutesFor, exampleTrips, noFilter, analyticsWherePred,
    mkTripR, List.filter, decide_dir_oo, decide_dir_oi]

/-- The spec's example database has no inbound samples. -/
theorem minutesFor_example_inbound :
    minutesFor exampleTrips noFilter Direction.inbound = [] := by
  norm_num [minutesFor, exampleTrips, noFilter, analyticsWherePred,
    mkTripR, List.filter, decide_dir_oo, decide_dir_oi]

/-- C1: `getStatisticalSummary` computes its percentile fields by linear
interpolation between order statistics at index `p/100 × (n−1)` and its
standard deviation as the rounded population standard deviation (divide by
`n`); every emitted summary is the `mkSummary` of its direction's samples,
and on the spec's known array `[10,20,30,40,50]` the output reports
p50 = 30, p90 = 46, min = 10, max = 50, stdDev = 14.1 after rounding to one
decimal — the unrounded population standard deviation `√200` being 14.14 to
two decimals. -/
theorem C1_percentile_and_population_stddev :
    (∀ (d : Direction) (values : List ℚ), values ≠ [] →
      (mkSummary d values).median_minutes =
        round1 (specPercentile (values.insertionSort (· ≤ ·)) 50) ∧
      (mkSummary d values).p75_minutes =
        round1 (specPercentile (values.insertionSort (· ≤ ·)) 75) ∧
      (mkSummary d values).p90_minutes =
        round1 (specPercentile (values.insertionSort (· ≤ ·)) 90) ∧
      (mkSummary d values).p95_minutes =
        round1 (specPercentile (values.insertionSort (· ≤ ·)) 95) ∧
      (((mkSummary d values).std_dev_minutes : ℝ)) =
        (⌊Real.sqrt ((popVariance values : ℚ) : ℝ) * 10 + 1/2⌋₊ : ℝ) / 10 ∧
      (mkSummary d values).sample_count = values.length ∧
      (mkSummary d values).min_minutes =
        round1 ((values.insertionSort (· ≤ ·)).headD 0) ∧
      (mkSummary d values).max_minutes =
        round1 ((values.insertionSort (· ≤ ·)).getLastD 0)) ∧
    (∀ (db : List Trip) (f : QueryFilters) (d : Direction),
      minutesFor db f d ≠ [] →
      mkSummary d (minutesFor db f d) ∈ getStatisticalSummary db f) ∧
    getStatisticalSummary exampleTrips noFilter =
      [{ direction := Direction.outbound
         sample_count := 5
         mean_minutes := 30
         median_minutes := 30
         p75_minutes := 40
         p90_minutes := 46
         p95_minutes := 48
         std_dev_minutes := 141/10
         min_minutes := 10
         max_minutes := 50
         coefficient_of_variation := 471/1000 }] ∧
    popVariance [10, 20, 30, 40, 50] = 200 ∧
    (roundSqrtHalfUp 100 (popVariance [10, 20, 30, 40, 50]) : ℚ) / 100 =
      1414/100 := by
  have hpv : popVariance [10, 20, 30, 40, 50] = 200 := by
    norm_num [popVariance, List.sum_cons, List.sum_nil]
  refine ⟨?_, ?_, ?_, hpv, ?_⟩
  · intro d values hv
    have hsne := insertionSort_ne_nil values hv
    refine ⟨?_, ?_, ?_, ?_, ?_, rfl, rfl, rfl⟩
    · show round1 (percentile (values.insertionSort (· ≤ ·)) 50) = _
      rw [percentile_eq_spec _ hsne]
    · show round1 (percentile (values.insertionSort (· ≤ ·)) 75) = _
      rw [percentile_eq_spec _ hsne]
    · show round1 (percentile (values.insertionSort (· ≤ ·)) 90) = _
      rw [percentile_eq_spec _ hsne]
    · show round1 (percentile (values.insertionSort (· ≤ ·)) 95) = _
      rw [percentile_eq_spec _ hsne]
    · rw [show (mkSummary d values).std_dev_minutes =
        (roundSqrtHalfUp 10 (popVariance values) : ℚ) / 10 from rfl]
      rw [roundSqrtHalfUp_eq 10 (popVariance values) (popVariance_nonneg values)]
      push_cast
      ring
  · exact mkSummary_mem
  · have hvals := minutesFor_example_outbound
    have hvals0 := minutesFor_example_inbound
    have hsumm : getStatisticalSummary exampleTrips noFilter =
        [mkSummary Direction.outbound [10, 20, 30, 40, 50]] := by
      unfold getStatisticalSummary directionsSorted
      simp [hvals, hvals0]
    rw [hsumm]
    have hsorted : ([10, 20, 30, 40, 50] : List ℚ).insertionSort (· ≤ ·) =
        [10, 20, 30, 40, 50] := by
      norm_num [List.insertionSort, List.orderedInsert]
    have hs1 : roundSqrtHalfUp 10 200 = 141 :=
      roundSqrtHalfUp_eval (by norm_num) (by norm_num) (by norm_num)
        (by norm_num)
    have hs2 : roundSqrtHalfUp 1000 (2/9 : ℚ) = 471 :=
      roundSqrtHalfUp_eval (by norm_num) (by norm_num) (by norm_num)
        (by norm_num)
    unfold mkSummary
    rw [hsorted]
    norm_num [List.sum_cons, List.sum_nil, round1, jsRound, percentile,
      ceil_eq_neg_floor, hs1, hs2]
    simp
    norm_num
  · have hs3 : roundSqrtHalfUp 100 (200 : ℚ) = 1414 :=
      roundSqrtHalfUp_eval (by norm_num) (by norm_num) (by norm_num)
        (by norm_num)
    rw [hpv, hs3]
    norm_num

/-- Witness for C1: the percentile clause applied to the spec's known
sample array. -/
theorem C1_witness :
    (mkSummary Direction.outbound [10, 20, 30, 40, 50]).median_minutes =
      round1 (specPercentile
        (([10, 20, 30, 40, 50] : List ℚ).insertionSort (· ≤ ·)) 50) :=
  (C1_percentile_and_population_stddev.1 Direction.outbound
    [10, 20, 30, 40, 50] (List.cons_ne_nil _ _)).1

/-- Witness for C7: the single-sample clause applied to a one-trip
database. -/
theorem C7_witness :
    (getReliabilityMetrics [mkTripR 1 0 600] noFilter
        defaultConfidenceLevels).filter
      (fun r => decide (r.direction = Direction.outbound)) =
    defaultConfidenceLevels.map (fun level =>
      { direction := Direction.outbound
        confidence_level := level
        duration_minutes := jsRound 10 }) :=
  C7_reliability_monotone_and_single_sample.2 [mkTripR 1 0 600] noFilter
    Direction.outbound 10 (by
      norm_num [minutesFor, noFilter, analyticsWherePred, mkTripR,
        List.filter, decide_dir_oo])

/-- A non-empty list has `isEmpty = false`. -/
theorem isEmpty_false_of_ne {α : Type} (l : List α) (h : l ≠ []) :
    l.isEmpty = false := by
  cases l
  · exact absurd rfl h
  · rfl

/-- Every summary in the output is the `mkSummary` of its direction's
non-empty sample list. -/
theorem mem_getStatisticalSummary_elim (db : List Trip) (f : QueryFilters)
    (s : StatisticalSummary) (h : s ∈ getStatisticalSummary db f) :
    ∃ d, minutesFor db f d ≠ [] ∧ s = mkSummary d (minutesFor db f d) := by
  unfold getStatisticalSummary directionsSorted at h
  simp only [List.filterMap_cons, List.filterMap_nil, List.isEmpty_iff] at h
  by_cases hin : minutesFor db f Direction.inbound = [] <;>
    by_cases hout : minutesFor db f Direction.outbound = [] <;>
      simp [hin, hout] at h
  · exact ⟨Direction.outbound, hout, h⟩
  · exact ⟨Direction.inbound, hin, h⟩
  · rcases h with h | h
    · exact ⟨Direction.inbound, hin, h⟩
    · exact ⟨Direction.outbound, hout, h⟩

/-- The per-direction rounded standard deviations are nonnegative, hence so
is their cross-direction average. -/
theorem overallStdDevOf_nonneg (db : List Trip) (f : QueryFilters) :
    0 ≤ overallStdDevOf (getStatisticalSummary db f) := by
  unfold overallStdDevOf
  apply div_nonneg
  · apply List.sum_nonneg
    intro x hx
    rcases List.mem_map.mp hx with ⟨s, hs, hxs⟩
    rcases mem_getStatisticalSummary_elim db f s hs with ⟨d, -, hform⟩
    rw [← hxs, hform]
    show (0:ℚ) ≤ (roundSqrtHalfUp 10 _ : ℚ) / 10
    positivity
  · positivity

/-- The SQL `CASE` classification characterised bucket by bucket: each
value falls in exactly the bucket between its exclusive lower and inclusive
upper boundary. -/
theorem classify_iff (vf fa mo sl : ℚ) (h1 : vf ≤ fa) (h2 : fa ≤ mo)
    (h3 : mo ≤ sl) (m : ℚ) :
    (classify vf fa mo sl m = PatternType.very_fast ↔ m ≤ vf) ∧
    (classify vf fa mo sl m = PatternType.fast ↔ vf < m ∧ m ≤ fa) ∧
    (classify vf fa mo sl m = PatternType.moderate ↔ fa < m ∧ m ≤ mo) ∧
    (classify vf fa mo sl m = PatternType.slow ↔ mo < m ∧ m ≤ sl) ∧
    (classify vf fa mo sl m = PatternType.very_slow ↔ sl < m) := by
  unfold classify
  split_ifs with c1 c2 c3 c4 <;>
    refine ⟨?_, ?_, ?_, ?_, ?_⟩ <;>
      simp_all <;> intros <;> linarith

/-- Every pooled measurement lands in exactly one category: the five
category counts sum to the pooled sample count. -/
theorem patternTotal_eq_length (vf fa mo sl : ℚ) (pooled : List ℚ) :
    patternTotal vf fa mo sl pooled = pooled.length := by
  unfold patternTotal patternCount
  induction pooled with
  | nil => rfl
  | cons a l ih =>
    simp only [List.countP_cons, List.length_cons]
    rcases hcl : classify vf fa mo sl a <;> simp [hcl] <;> omega

/-- C4: the four boundaries are derived from the cross-direction averages
of the per-direction summary means and standard deviations as
`overallMean − 0.5σ`, `overallMean`, `overallMean + 0.5σ`,
`overallMean + 1.5σ` (with `σ ≥ 0`, so the boundaries are ordered); each
output row carries those boundaries and the count of pooled measurements
its category receives; the `CASE` assigns every measurement to exactly one
of the five categories, with inclusive upper bounds — a value equal to
`fastMax` is classified `fast` (never `moderate`) whenever the boundaries
are separated. -/
theorem C4_thresholds_and_buckets :
    (∀ (db : List Trip) (f : QueryFilters), getStatisticalSummary db f ≠ [] →
      getTrafficPatterns db f =
        patternRows
          (overallMeanOf (getStatisticalSummary db f) -
            0.5 * overallStdDevOf (getStatisticalSummary db f))
          (overallMeanOf (getStatisticalSummary db f))
          (overallMeanOf (getStatisticalSummary db f) +
            0.5 * overallStdDevOf (getStatisticalSummary db f))
          (overallMeanOf (getStatisticalSummary db f) +
            1.5 * overallStdDevOf (getStatisticalSummary db f))
          (pooledMinutes db f) ∧
      0 ≤ overallStdDevOf (getStatisticalSummary db f)) ∧
    (∀ (vf fa mo sl : ℚ) (pooled : List ℚ),
      (patternRows vf fa mo sl pooled).map
        (fun r => (r.pattern_type, r.max_threshold_minutes,
          r.occurrence_count)) =
      [(PatternType.very_fast, jsRound vf,
          patternCount vf fa mo sl pooled PatternType.very_fast),
       (PatternType.fast, jsRound fa,
          patternCount vf fa mo sl pooled PatternType.fast),
       (PatternType.moderate, jsRound mo,
          patternCount vf fa mo sl pooled PatternType.moderate),
       (PatternType.slow, jsRound sl,
          patternCount vf fa mo sl pooled PatternType.slow),
       (PatternType.very_slow, 999,
          patternCount vf fa mo sl pooled PatternType.very_slow)]) ∧
    (∀ (vf fa mo sl : ℚ), vf ≤ fa → fa ≤ mo → mo ≤ sl → ∀ m : ℚ,
      (classify vf fa mo sl m = PatternType.very_fast ↔ m ≤ vf) ∧
      (classify vf fa mo sl m = PatternType.fast ↔ vf < m ∧ m ≤ fa) ∧
      (classify vf fa mo sl m = PatternType.moderate ↔ fa < m ∧ m ≤ mo) ∧
      (classify vf fa mo sl m = PatternType.slow ↔ mo < m ∧ m ≤ sl) ∧
      (classify vf fa mo sl m = PatternType.very_slow ↔ sl < m)) ∧
    (∀ (vf fa mo sl : ℚ) (pooled : List ℚ),
      patternTotal vf fa mo sl pooled = pooled.length) := by
  refine ⟨?_, ?_, ?_, ?_⟩
  · intro db f h
    constructor
    · unfold getTrafficPatterns
      rw [if_neg ?_]
      intro hc
      rw [List.isEmpty_iff] at hc
      exact h hc
    · exact overallStdDevOf_nonneg db f
  · intro vf fa mo sl pooled
    rfl
  · intro vf fa mo sl h1 h2 h3 m
    exact classify_iff vf fa mo sl h1 h2 h3 m
  · intro vf fa mo sl pooled
    exact patternTotal_eq_length vf fa mo sl pooled

/-- Witness for C4: the boundary-derivation clause applied to the example
database. -/
theorem C4_witness :
    0 ≤ overallStdDevOf (getStatisticalSummary exampleTrips noFilter) := by
  have hne : minutesFor exampleTrips noFilter Direction.outbound ≠ [] := by
    rw [minutesFor_example_outbound]
    exact List.cons_ne_nil _ _
  exact (C4_thresholds_and_buckets.1 exampleTrips noFilter
    (List.ne_nil_of_mem
      (mkSummary_mem exampleTrips noFilter Direction.outbound hne))).2

/-- `Math.round` moves a value by at most one half. -/
theorem jsRound_close (x : ℚ) : |(jsRound x : ℚ) - x| ≤ 1/2 := by
  unfold jsRound
  rw [abs_le]
  constructor
  · have := Int.lt_floor_add_one (x + 1/2)
    linarith
  · have := Int.floor_le (x + 1/2)
    linarith

/-- The percentage formula applies uniformly: a zero-count category's `0`
equals the rounded formula at count `0`. -/
theorem patternPct_uniform (vf fa mo sl : ℚ) (pooled : List ℚ)
    (pt : PatternType) :
    patternPct vf fa mo sl pooled pt =
      (jsRound ((patternCount vf fa mo sl pooled pt : ℚ) /
        (patternTotal vf fa mo sl pooled : ℚ) * 1000) : ℚ) / 10 := by
  unfold patternPct
  split_ifs with h
  · rw [h]
    norm_num [jsRound]
  · rfl

/-- The five reported percentages sum to `100` up to a total rounding error
of one half. -/
theorem patternPct_sum_close (vf fa mo sl : ℚ) (pooled : List ℚ)
    (hne : pooled ≠ []) :
    |patternPct vf fa mo sl pooled PatternType.very_fast +
      patternPct vf fa mo sl pooled PatternType.fast +
      patternPct vf fa mo sl pooled PatternType.moderate +
      patternPct vf fa mo sl pooled PatternType.slow +
      patternPct vf fa mo sl pooled PatternType.very_slow - 100| ≤ 1/2 := by
  have htot := patternTotal_eq_length vf fa mo sl pooled
  have hpos : 0 < pooled.length := List.length_pos.mpr hne
  have hT : (0:ℚ) < (patternTotal vf fa mo sl pooled : ℚ) := by
    rw [htot]
    exact_mod_cast hpos
  have hsum : ((patternCount vf fa mo sl pooled PatternType.very_fast : ℚ) +
      patternCount vf fa mo sl pooled PatternType.fast +
      patternCount vf fa mo sl pooled PatternType.moderate +
      patternCount vf fa mo sl pooled PatternType.slow +
      patternCount vf fa mo sl pooled PatternType.very_slow) =
      (patternTotal vf fa mo sl pooled : ℚ) := by
    unfold patternTotal
    push_cast
    ring
  have hx : ∀ pt : PatternType,
      |patternPct vf fa mo sl pooled pt -
        (patternCount vf fa mo sl pooled pt : ℚ) /
          (patternTotal vf fa mo sl pooled : ℚ) * 100| ≤ 1/20 := by
    intro pt
    rw [patternPct_uniform]
    have hcl := jsRound_close ((patternCount vf fa mo sl pooled pt : ℚ) /
      (patternTotal vf fa mo sl pooled : ℚ) * 1000)
    rw [abs_le] at hcl ⊢
    rcases hcl with ⟨ha, hb⟩
    constructor <;> linarith
  have hfrac : (patternCount vf fa mo sl pooled PatternType.very_fast : ℚ) /
        (patternTotal vf fa mo sl pooled : ℚ) * 100 +
      (patternCount vf fa mo sl pooled PatternType.fast : ℚ) /
        (patternTotal vf fa mo sl pooled : ℚ) * 100 +
      (patternCount vf fa mo sl pooled PatternType.moderate : ℚ) /
        (patternTotal vf fa mo sl pooled : ℚ) * 100 +
      (patternCount vf fa mo sl pooled PatternType.slow : ℚ) /
        (patternTotal vf fa mo sl pooled : ℚ) * 100 +
      (patternCount vf fa mo sl pooled PatternType.very_slow : ℚ) /
        (patternTotal vf fa mo sl pooled : ℚ) * 100 = 100 := by
    field_simp
    linarith [hsum]
  have h1 := hx PatternType.very_fast
  have h2 := hx PatternType.fast
  have h3 := hx PatternType.moderate
  have h4 := hx PatternType.slow
  have h5 := hx PatternType.very_slow
  rw [abs_le] at h1 h2 h3 h4 h5 ⊢
  constructor <;> linarith

/-- C5: under any filter selecting at least one measurement, all five
categories are reported (zero-count ones with count `0` and percentage `0`,
still carrying their computed threshold range), and the five percentages
sum to `100` within `0.5`. -/
theorem C5_five_categories_percentages_sum (db : List Trip)
    (f : QueryFilters)
    (h : db.filter (fun t => analyticsWherePred f t) ≠ []) :
    (getTrafficPatterns db f).map (fun r => r.pattern_type) =
      [PatternType.very_fast, PatternType.fast, PatternType.moderate,
       PatternType.slow, PatternType.very_slow] ∧
    (∀ r ∈ getTrafficPatterns db f, r.occurrence_count = 0 →
      r.percentage = 0) ∧
    |((getTrafficPatterns db f).map (fun r => r.percentage)).sum - 100| ≤
      1/2 := by
  have hstats : getStatisticalSummary db f ≠ [] := by
    intro hc
    exact h ((getStatisticalSummary_nil_iff db f).mp hc)
  have hpool : pooledMinutes db f ≠ [] := by
    unfold pooledMinutes
    intro hc
    rw [List.map_eq_nil] at hc
    exact h hc
  have hrows : getTrafficPatterns db f =
      patternRows
        (overallMeanOf (getStatisticalSummary db f) -
          0.5 * overallStdDevOf (getStatisticalSummary db f))
        (overallMeanOf (getStatisticalSummary db f))
        (overallMeanOf (getStatisticalSummary db f) +
          0.5 * overallStdDevOf (getStatisticalSummary db f))
        (overallMeanOf (getStatisticalSummary db f) +
          1.5 * overallStdDevOf (getStatisticalSummary db f))
        (pooledMinutes db f) := by
    unfold getTrafficPatterns
    rw [if_neg (by rw [List.isEmpty_iff]; exact hstats)]
  rw [hrows]
  refine ⟨rfl, ?_, ?_⟩
  · intro r hr hc
    unfold patternRows at hr
    simp only [List.mem_cons, List.not_mem_nil, or_false] at hr
    rcases hr with hr | hr | hr | hr | hr <;>
      · rw [hr] at hc ⊢
        simp only at hc ⊢
        unfold patternPct
        rw [if_pos hc]
  · have hclose := patternPct_sum_close
      (overallMeanOf (getStatisticalSummary db f) -
        0.5 * overallStdDevOf (getStatisticalSummary db f))
      (overallMeanOf (getStatisticalSummary db f))
      (overallMeanOf (getStatisticalSummary db f) +
        0.5 * overallStdDevOf (getStatisticalSummary db f))
      (overallMeanOf (getStatisticalSummary db f) +
        1.5 * overallStdDevOf (getStatisticalSummary db f))
      (pooledMinutes db f) hpool
    unfold patternRows
    simp only [List.map_cons, List.map_nil, List.sum_cons, List.sum_nil]
    rw [abs_le] at hclose ⊢
    constructor <;> linarith [hclose.1, hclose.2]

/-- Witness for C5 at the example database. -/
theorem C5_witness :
    (getTrafficPatterns exampleTrips noFilter).map (fun r => r.pattern_type) =
      [PatternType.very_fast, PatternType.fast, PatternType.moderate,
       PatternType.slow, PatternType.very_slow] := by
  have h : exampleTrips.filter (fun t => analyticsWherePred noFilter t) ≠ [] := by
    intro hc
    have hm : minutesFor exampleTrips noFilter Direction.outbound = [] := by
      unfold minutesFor
      rw [hc]
      rfl
    rw [minutesFor_example_outbound] at hm
    cases hm
  exact (C5_five_categories_percentages_sum exampleTrips noFilter h).1

/-- The route/model-filtered linked rows of the `prediction_accuracy`
view. -/
theorem accuracy_group_eq_participants (preds : List Prediction)
    (trips : List Trip) (rid : String) (model : TrafficModel)
    (d : Direction) (dow h : ℕ) :
    ((linkedPairs preds trips).filter (fun q =>
        decide (q.1.predictedAtJd < q.1.predictedForJd) &&
          decide (q.1.routeId = rid) &&
          decide (q.1.trafficModel = model))).filter
      (fun q => decide (accKey q = (dow, h, d))) =
    participants preds trips rid model d dow h := by
  unfold participants
  rw [List.filter_filter]
  apply List.filter_congr
  intro q hq
  rcases q with ⟨p, t⟩
  by_cases h1 : p.predictedAtJd < p.predictedForJd <;>
    by_cases h2 : p.routeId = rid <;>
      by_cases h3 : p.trafficModel = model <;>
        by_cases h4 : p.dayOfWeek = dow <;>
          by_cases h5 : p.hourLocal = h <;>
            by_cases h6 : p.direction = d <;>
              simp [accKey, h1, h2, h3, h4, h5, h6, Prod.ext_iff]

/-- Sums of squared errors are nonnegative, hence so is the group mean
square. -/
theorem meanSquare_nonneg (g : List (Prediction × Trip)) :
    (0:ℚ) ≤ (g.map (fun q => diffSeconds q ^ 2)).sum / (g.length : ℚ) := by
  apply div_nonneg
  · apply List.sum_nonneg
    intro x hx
    rcases List.mem_map.mp hx with ⟨q, -, hq⟩
    rw [← hq]
    positivity
  · positivity

/-- C6: a group row exists in `getPredictionAccuracy` exactly when some
linked prediction of the requested route and traffic model, with
`predictedAt` strictly before `predictedFor`, carries the group's bucket
keys (the prediction's own `dayOfWeek`/`hourLocal`/`direction`); each such
row aggregates exactly those records, reporting the group size, the mean
signed bias `mean(predicted − actual)`, the mean absolute error and the
root-mean-square error — all computed in seconds, divided by 60 and rounded
to one decimal. -/
theorem C6_accuracy_groups (preds : List Prediction) (trips : List Trip)
    (rid : String) (model : TrafficModel) (d : Direction) (dow h : ℕ) :
    ((∃ row ∈ getPredictionAccuracy preds trips rid model,
        row.direction = d ∧ row.day_of_week = dow ∧ row.hour_local = h) ↔
      participants preds trips rid model d dow h ≠ []) ∧
    (∀ row ∈ getPredictionAccuracy preds trips rid model,
      row.direction = d → row.day_of_week = dow → row.hour_local = h →
      row = mkAccuracyRow d dow h (participants preds trips rid model d dow h)) ∧
    (∀ g : List (Prediction × Trip),
      (mkAccuracyRow d dow h g).prediction_count = g.length ∧
      (mkAccuracyRow d dow h g).avg_bias_minutes =
        sqliteRound1 ((g.map diffSeconds).sum / (g.length : ℚ) / 60) ∧
      (mkAccuracyRow d dow h g).avg_error_minutes =
        sqliteRound1 ((g.map (fun q => |diffSeconds q|)).sum /
          (g.length : ℚ) / 60) ∧
      (((mkAccuracyRow d dow h g).rmse_minutes : ℝ)) =
        (⌊Real.sqrt (((g.map (fun q => diffSeconds q ^ 2)).sum /
            (g.length : ℚ) : ℚ) : ℝ) / 60 * 10 + 1/2⌋₊ : ℝ) / 10) := by
  refine ⟨?_, ?_, ?_⟩
  · constructor
    · rintro ⟨row, hrow, hd, hdow, hh⟩
      unfold getPredictionAccuracy at hrow
      rcases List.mem_map.mp hrow with ⟨k, hk, hform⟩
      rcases k with ⟨dow', h', d'⟩
      have hd' : d' = d := by rw [← hform] at hd; exact hd
      have hdow' : dow' = dow := by rw [← hform] at hdow; exact hdow
      have hh' : h' = h := by rw [← hform] at hh; exact hh
      subst hd' hdow' hh'
      have hk' := ((List.perm_insertionSort accKeyLe _).mem_iff).mp hk
      rw [List.mem_dedup] at hk'
      rcases List.mem_map.mp hk' with ⟨q, hqmem, hqkey⟩
      intro hcon
      have hqin : q ∈ participants preds trips rid model d' dow' h' := by
        rw [← accuracy_group_eq_participants preds trips rid model d' dow' h']
        apply List.mem_filter.mpr
        exact ⟨hqmem, by rw [hqkey]; simp⟩
      rw [hcon] at hqin
      cases hqin
    · intro hne
      rcases List.exists_mem_of_ne_nil _ hne with ⟨q, hq⟩
      rw [← accuracy_group_eq_participants preds trips rid model d dow h] at hq
      rcases List.mem_filter.mp hq with ⟨hqrows, hqkey⟩
      have hkeyq : accKey q = (dow, h, d) := of_decide_eq_true hqkey
      refine ⟨mkAccuracyRow d dow h
        (((linkedPairs preds trips).filter (fun q =>
            decide (q.1.predictedAtJd < q.1.predictedForJd) &&
              decide (q.1.routeId = rid) &&
              decide (q.1.trafficModel = model))).filter
          (fun q => decide (accKey q = (dow, h, d)))), ?_, rfl, rfl, rfl⟩
      unfold getPredictionAccuracy
      apply List.mem_map.mpr
      refine ⟨(dow, h, d), ?_, rfl⟩
      apply ((List.perm_insertionSort accKeyLe _).mem_iff).mpr
      rw [List.mem_dedup]
      apply List.mem_map.mpr
      exact ⟨q, hqrows, hkeyq⟩
  · intro row hrow hd hdow hh
    unfold getPredictionAccuracy at hrow
    rcases List.mem_map.mp hrow with ⟨k, hk, hform⟩
    rcases k with ⟨dow', h', d'⟩
    have hd' : d' = d := by rw [← hform] at hd; exact hd
    have hdow' : dow' = dow := by rw [← hform] at hdow; exact hdow
    have hh' : h' = h := by rw [← hform] at hh; exact hh
    subst hd' hdow' hh'
    rw [← hform]
    rw [accuracy_group_eq_participants preds trips rid model d' dow' h']
  · intro g
    refine ⟨rfl, rfl, rfl, ?_⟩
    have hmsq := meanSquare_nonneg g
    have hdiv : (0:ℚ) ≤ (g.map (fun q => diffSeconds q ^ 2)).sum /
        (g.length : ℚ) / 3600 := by positivity
    have hfield : (mkAccuracyRow d dow h g).rmse_minutes =
        (roundSqrtHalfUp 10 ((g.map (fun q => diffSeconds q ^ 2)).sum /
          (g.length : ℚ) / 3600) : ℚ) / 10 := rfl
    have hsq : Real.sqrt (((g.map (fun q => diffSeconds q ^ 2)).sum /
        (g.length : ℚ) / 3600 : ℚ) : ℝ) =
        Real.sqrt (((g.map (fun q => diffSeconds q ^ 2)).sum /
          (g.length : ℚ) : ℚ) : ℝ) / 60 := by
      have hcast : (((g.map (fun q => diffSeconds q ^ 2)).sum /
          (g.length : ℚ) / 3600 : ℚ) : ℝ) =
          (((g.map (fun q => diffSeconds q ^ 2)).sum /
            (g.length : ℚ) : ℚ) : ℝ) / 3600 := by push_cast; ring
      rw [hcast, Real.sqrt_div (by exact_mod_cast hmsq) 3600]
      rw [show (3600:ℝ) = 60^2 by norm_num, Real.sqrt_sq (by norm_num)]
    have hnat : roundSqrtHalfUp 10 ((g.map (fun q => diffSeconds q ^ 2)).sum /
        (g.length : ℚ) / 3600) =
        ⌊Real.sqrt (((g.map (fun q => diffSeconds q ^ 2)).sum /
          (g.length : ℚ) : ℚ) : ℝ) / 60 * 10 + 1/2⌋₊ := by
      rw [roundSqrtHalfUp_eq _ _ hdiv, hsq]
      norm_num
    rw [hfield, hnat]
    push_cast
    ring

/-- Witness for C6: the aggregate clause applied to a concrete
one-element group. -/
theorem C6_witness :
    (mkAccuracyRow Direction.outbound 1 8 [(predLinked, trip30)]).prediction_count = 1 :=
  ((C6_accuracy_groups [] [] "r" TrafficModel.best_guess Direction.outbound
    1 8).2.2 [(predLinked, trip30)]).1

end TrafficTracker
